import Mathlib

/-!
Verification of the scimate-agent core against its specification.

The development shallowly embeds the Python sources:
 - `scimate_agent/nodes/code_verifier.py` (code verification gate),
 - `scimate_agent/nodes/code_executor/code_executor.py` (executor node and router edge),
 - `scimate_agent/state/round.py`, `state/post.py` (conversation merge engine, as a heap model),
 - `scimate_agent/nodes/code_executor/session/{environment,client}.py` (session engine),
 - `scimate_agent/event.py` (event emitter).

Machine integers are Int/Nat, Python `None` is `Option`, raised exceptions are
`Except`, and Python object identity/mutation (needed for the purity claims) is
modelled by an explicit heap of cells addressed by natural numbers.
-/

namespace SciMate

/-! ## Code verifier (`nodes/code_verifier.py`)

The verifier receives a code string, splits it line-wise into magic / python /
shell-escape lines by regex prefix (`seperate_code_lines`), parses the python
portion with `ast.parse`, and walks the tree.  We embed the code at the line
level: a `SrcLine` records which of the mutually exclusive regex classes
(`LINE_MAGIC_PATTERN`, `CELL_MAGIC_PATTERN`, `SHELL_COMMAND_PATTERN`, blank or
comment, plain python) the line's text falls into, and a python line carries its
parse.  The embedding covers python lines that are single simple statements
(imports, from-imports, other statements), for which `ast.parse` of the joined
lines yields one statement per line with `lineno` equal to the 1-based position
of the line. -/

/-- Python statement carried by one plain-code line.  `imp` is
`import a.b, c` (dotted alias names), `impFrom` is `from m import n1, n2`
with an absolute module, `other` is any other single-line statement (its raw
text is kept for rendering).  Calls and assignments inside `other` lines are
not modelled; no claim in scope activates the function or variable policy on
a python line. -/
inductive PyStmt
  | imp (aliases : List String)
  | impFrom (module : String) (names : List String)
  | other (text : String)
  deriving DecidableEq

/-- Render the stripped text of a python line, used by the validator as
`self.lines[node.lineno - 1]`. -/
def renderStmt : PyStmt → String
  | .imp aliases => "import " ++ String.intercalate ", " aliases
  | .impFrom m names => "from " ++ m ++ " import " ++ String.intercalate ", " names
  | .other t => t

/-- One line of the submitted code, classified the way the three regexes and
the blank/comment check of `seperate_code_lines` classify its text.  The
classes are mutually exclusive (a line matches `LINE_MAGIC_PATTERN` only if it
does not match `CELL_MAGIC_PATTERN` and conversely, a shell line starts with
`!`, a blank or `#`-comment line is skipped). -/
inductive SrcLine
  | blankOrComment (text : String)
  | lineMagic (text : String)
  | cellMagic (text : String)
  | shell (text : String)
  | python (stmt : PyStmt)
  deriving DecidableEq

/-- Test for the `SHELL_COMMAND_PATTERN` class. -/
def SrcLine.isShell : SrcLine → Bool
  | .shell _ => true
  | _ => false

/-- Test for the blank-or-comment class skipped by `seperate_code_lines`. -/
def SrcLine.isBlankOrComment : SrcLine → Bool
  | .blankOrComment _ => true
  | _ => false

/-- Worker of `seperate_code_lines`: the Bool is the `inside_cell_magic`
flag.  Blank and comment lines are skipped before anything else, so the
`if not line.strip(): inside_cell_magic = False` reset inside the
cell-magic branch is dead code and the flag, once set, never clears; every
later non-blank line (python and shell lines included) is appended to
`magics`.  Returns `(magics, python statements, shell_lines)`. -/
def separateGo : Bool → List SrcLine → List SrcLine × List PyStmt × List SrcLine
  | _, [] => ([], [], [])
  | icm, .blankOrComment _ :: rest => separateGo icm rest
  | true, line :: rest =>
      let r := separateGo true rest
      (line :: r.1, r.2.1, r.2.2)
  | false, .lineMagic t :: rest =>
      let r := separateGo false rest
      (.lineMagic t :: r.1, r.2.1, r.2.2)
  | false, .cellMagic t :: rest =>
      let r := separateGo true rest
      (.cellMagic t :: r.1, r.2.1, r.2.2)
  | false, .shell t :: rest =>
      let r := separateGo false rest
      (r.1, r.2.1, .shell t :: r.2.2)
  | false, .python st :: rest =>
      let r := separateGo false rest
      (r.1, st :: r.2.1, r.2.2)

/-- Embedding of `seperate_code_lines` (the misspelling is the source's). -/
def seperate_code_lines (code : List SrcLine) : List SrcLine × List PyStmt × List SrcLine :=
  separateGo false code

/-- The six optional allow/block lists accepted by `FunctionCallValidator`
and `apply_code_verification`. -/
structure Policy where
  allowed_modules : Option (List String)
  blocked_modules : Option (List String)
  allowed_functions : Option (List String)
  blocked_functions : Option (List String)
  allowed_variables : Option (List String)
  blocked_variables : Option (List String)
  deriving DecidableEq

/-- The policy with every list unset, as used by `code_verifier_node`
(which calls `apply_code_verification(code)` with all keyword defaults). -/
def noPolicy : Policy :=
  { allowed_modules := none, blocked_modules := none,
    allowed_functions := none, blocked_functions := none,
    allowed_variables := none, blocked_variables := none }

/-- One entry of the `errors` list of `apply_code_verification`.  Each
constructor corresponds to one formatted message in the source and carries
exactly the data interpolated into it: `importNotAllowed lineno lineText m`
stands for `Error on line {lineno}: {lineText} => Importing module {m} is
not allowed.`, `syntaxError e` stands for `Syntax error: {e}`, and
`magicsNotAllowed` for `Magic commands are not allowed.`. -/
inductive VerifyError
  | magicsNotAllowed
  | syntaxError (msg : String)
  | importNotAllowed (lineno : Nat) (lineText : String) (module : String)
  | importFromNotAllowed (lineno : Nat) (lineText : String) (module : String)
  deriving DecidableEq

/-- The three `assert` statements of `FunctionCallValidator.__init__`, in
source order.  A failing assert raises `AssertionError(msg)`. -/
def validatorAsserts (p : Policy) : Except String Unit :=
  if p.allowed_modules.isSome && p.blocked_modules.isSome then
    .error "Only one of allowed_modules or blocked_modules can be set."
  else if p.allowed_functions.isSome && p.blocked_functions.isSome then
    .error "Only one of allowed_functions or blocked_functions can be set."
  else if p.allowed_variables.isSome && p.blocked_variables.isSome then
    .error "Only one of allowed_variables or blocked_variables can be set."
  else .ok ()

/-- Membership of a module name in an optional list (`mod_name in lst`). -/
def optContains (o : Option (List String)) (x : String) : Bool :=
  match o with
  | some l => l.contains x
  | none => false

/-- Embedding of `FunctionCallValidator._is_allowed_module_import`, kept
exactly as written in the source:

    if self.allowed_modules is not None and mod_name in self.allowed_modules:
        return True
    if self.blocked_modules is not None and mod_name not in self.blocked_modules:
        return False
    return True
-/
def is_allowed_module_import (p : Policy) (modName : String) : Bool :=
  if p.allowed_modules.isSome && optContains p.allowed_modules modName then
    true
  else if p.blocked_modules.isSome && !(optContains p.blocked_modules modName) then
    false
  else
    true

/-- Embedding of `alias.name.split(".")[0] if "." in alias.name else alias.name`
(both branches compute the text before the first dot, which for a dotless
name is the name itself). -/
def topLevelModule (name : String) : String :=
  String.mk (name.toList.takeWhile fun c => c ≠ Char.ofNat 46)

/-- Embedding of `FunctionCallValidator.visit_Import`: one error per offending
alias, carrying the statement's line number and the stripped line text. -/
def visit_Import (p : Policy) (lineno : Nat) (lineText : String)
    (aliases : List String) : List VerifyError :=
  if p.allowed_modules.isNone && p.blocked_modules.isNone then []
  else
    aliases.filterMap fun a =>
      let m := topLevelModule a
      if !(is_allowed_module_import p m) then
        some (.importNotAllowed lineno lineText m)
      else
        none

/-- Embedding of `FunctionCallValidator.visit_ImportFrom`. -/
def visit_ImportFrom (p : Policy) (lineno : Nat) (lineText : String)
    (module : String) : List VerifyError :=
  if p.allowed_modules.isNone && p.blocked_modules.isNone then []
  else
    let m := topLevelModule module
    if !(is_allowed_module_import p m) then
      [.importFromNotAllowed lineno lineText m]
    else
      []

/-- The validator's walk over the parsed statements.  In the modelled scope
(one simple statement per plain-code line) statement `i` (0-based) has
`lineno = i + 1` and `self.lines[lineno - 1] = ` the stripped text of that
line. -/
def validator_visit (p : Policy) (pylines : List PyStmt) : List VerifyError :=
  pylines.enum.flatMap fun iz =>
    match iz.2 with
    | .imp aliases => visit_Import p (iz.1 + 1) (renderStmt iz.2) aliases
    | .impFrom m _ => visit_ImportFrom p (iz.1 + 1) (renderStmt iz.2) m
    | .other _ => []

/-- Embedding of `apply_code_verification`.  The whole body runs inside
`try/except Exception`, so a failing constructor assert is caught and appended
to the already accumulated errors as `Syntax error: {e}`; the function always
returns the error list and never raises.  (`ast.parse` cannot fail in the
modelled scope of single-statement lines.) -/
def apply_code_verification (p : Policy) (code : List SrcLine) : List VerifyError :=
  let sep := seperate_code_lines code
  let errors := if sep.1.length > 0 then [VerifyError.magicsNotAllowed] else []
  match validatorAsserts p with
  | .error e => errors ++ [.syntaxError e]
  | .ok _ => errors ++ validator_visit p sep.2.1

/-- Message body of a Post produced by `code_verifier_node`: either the
forwarded code itself (on pass) or the error report text built from the
error list (on failure). -/
inductive VMessage
  | code (c : List SrcLine)
  | errorReport (errs : List VerifyError)
  deriving DecidableEq

/-- The slice of a Post that `code_verifier_node` determines (the generated
attachment and its fresh uuid are not modelled). -/
structure VPost where
  send_from : String
  send_to : String
  message : VMessage
  deriving DecidableEq

/-- Embedding of `self_correction_count + 1 if self_correction_count is not
None else 1`, the bump shared by the verifier, executor, generator and
planner nodes. -/
def bumpCount : Option Int → Option Int
  | some n => some (n + 1)
  | none => some 1

/-- Decision logic of `code_verifier_node`: verify the last post's code with
no policy; on errors, post back to the generator and bump the counter; on
pass, forward the original code to the executor and leave the counter
untouched. -/
def code_verifier_node_post (code : List SrcLine) (self_correction_count : Option Int) :
    VPost × Option Int :=
  let errors := apply_code_verification noPolicy code
  if errors.length > 0 then
    ({ send_from := "CodeVerifier", send_to := "CodeGenerator",
       message := .errorReport errors },
     bumpCount self_correction_count)
  else
    ({ send_from := "CodeVerifier", send_to := "CodeExecutor",
       message := .code code },
     self_correction_count)

/-! ## Code executor node and router edges
(`nodes/code_executor/code_executor.py`, `nodes/code_verifier.py`)

The executor node obtains an `ExecutionResult` from the session client and
turns it into a `Post` plus an updated self-correction counter; the router
edges read the last post of the last round and the counter.  The embedding
takes the `ExecutionResult` as a parameter (it is produced by the worker
process) and covers the node's pure decision logic and the full
`format_execution_result` pretty-printer. -/

/-- Attachment type tags (`state/attachment.py`). -/
inductive AttachmentType
  | THOUGHT
  | INIT_PLAN
  | PLAN
  | CURRENT_PLAN_STEP
  | PLAN_ENRICHMENT
  | CODE_GENERATION_RESULT
  | CODE_VERIFICATION_RESULT
  | CODE_EXECUTION_RESULT
  deriving DecidableEq

/-- One artifact record of an execution result
(`session/common.py`, `ExecutionArtifact`).  `type` is the open string tag
(`file`, `image`, `chart`, `svg`, ...). -/
structure ExecutionArtifact where
  name : Option String
  type : String
  mime_type : Option String
  original_name : Option String
  file_name : Option String
  file_content : Option String
  file_content_encoding : String
  preview : Option String
  deriving DecidableEq

/-- The `output` field of an `ExecutionResult`
(`Union[str, list[tuple[str, str]]] | None`). -/
inductive PyOutput
  | noneV
  | strV (s : String)
  | pairsV (l : List (String × String))
  deriving DecidableEq

/-- Python truthiness of the `output` field (`if result.output:`): `None`,
the empty string and the empty list are falsy. -/
def PyOutput.truthy : PyOutput → Bool
  | .noneV => false
  | .strV s => !s.isEmpty
  | .pairsV l => !l.isEmpty

/-- Embedding of `ExecutionResult` (`session/common.py`).  `logs` entries are
`(level, tag, message)` triples. -/
structure ExecutionResult where
  exec_id : String
  code : String
  cwd : Option String
  is_success : Bool
  error : Option String
  output : PyOutput
  stdout : List String
  stderr : List String
  logs : List (String × String × String)
  artifacts : List ExecutionArtifact
  deriving DecidableEq

/-- The character `%x27` as a string (used to print Python tuples, which
quote their components). -/
def squote : String := String.singleton (Char.ofNat 39)

/-- Python `str` of a `tuple[str, str]`, as produced for each entry of a
list-valued `output`. -/
def pyStrPair (p : String × String) : String :=
  "(" ++ squote ++ p.1 ++ squote ++ ", " ++ squote ++ p.2 ++ squote ++ ")"

/-- Python `str` applied to the `output` union (the list case is only reached
for values the caller has already dispatched on, so the pair rendering is
reused entry-wise). -/
def pyStrOutput : PyOutput → String
  | .noneV => "None"
  | .strV s => s
  | .pairsV l => "[" ++ String.intercalate ", " (l.map pyStrPair) ++ "]"

/-- Python `str` of an `Optional[str]` as interpolated into f-strings
(`str(None)` prints `None`). -/
def optStr : Option String → String
  | none => "None"
  | some s => s

/-- Embedding of `os.path.isabs` for POSIX paths. -/
def isabs (s : String) : Bool := s.startsWith "/"

/-- Embedding of `os.path.join(cwd, "artifacts", file_name)` for the
plain relative case used here. -/
def joinArtifactPath (cwd file_name : String) : String :=
  cwd ++ "/artifacts/" ++ file_name

/-- Embedding of `get_artifact_uri`.  `Path(file_path).as_uri()` is modelled
as the `file://` prefix (percent-encoding is not modelled); the `isabs`
assert of the source holds at every use in scope. -/
def get_artifact_uri (file_path : String) (use_local_uri : Bool) : String :=
  if use_local_uri then "file://" ++ file_path
  else "http://artifact-ref/" ++ file_path

/-- Truncation limit `TRUNCATE_CHAR_LENGTH`. -/
def TRUNCATE_CHAR_LENGTH : Nat := 1000

/-- Embedding of `format_execution_result`, building the same line list as
the source and joining it with the indent prefix. -/
def format_execution_result (result : ExecutionResult) (indent : Nat)
    (with_code : Bool) (code_mask : Option String) (use_local_uri : Bool) : String :=
  let lines : List String := []
  let lines := if with_code then
      let display_code :=
        match code_mask with
        | some m => if m.length > 0 then result.code.replace m "" else result.code
        | none => result.code
      lines ++ ["The following python code has been executed:\n```python\n"
                  ++ display_code ++ "\n```\n"]
    else lines
  let lines := lines ++
    ["The execution of the generated python code above has "
       ++ (if result.is_success then "succeeded" else "failed") ++ ".\n"]
  let lines :=
    if result.output.truthy then
      match result.output with
      | .pairsV l =>
          if l.length > 0 then
            lines ++ ["The values of variables of the above Python code after execution are:\n"]
              ++ l.map pyStrPair ++ [""]
          else
            lines ++ ["The result of above Python code after execution is:\n"
                        ++ pyStrOutput result.output]
      | o =>
          lines ++ ["The result of above Python code after execution is:\n" ++ pyStrOutput o]
    else if result.is_success then
      (if result.stdout.length > 0 then
        lines ++ ["The stdout is:"]
          ++ [(String.intercalate "\n" result.stdout).take TRUNCATE_CHAR_LENGTH]
      else
        lines ++ ["The execution is successful but no output is generated."]) ++ [""]
    else lines
  let lines :=
    if !result.is_success then
      lines ++ ["During execution, the following messages were logged:"]
        ++ (if result.logs.length > 0 then
              result.logs.map fun ln => "- [(l1)]" ++ ln.1 ++ ": " ++ ln.2.2
            else [])
        ++ (match result.error with
            | some e => [e.take TRUNCATE_CHAR_LENGTH]
            | none => [])
        ++ (if result.stdout.length > 0 then
              [(String.intercalate "\n" result.stdout).take TRUNCATE_CHAR_LENGTH]
            else [])
        ++ (if result.stderr.length > 0 then
              [(String.intercalate "\n" result.stderr).take TRUNCATE_CHAR_LENGTH]
            else [])
        ++ [""]
    else lines
  let lines :=
    if result.artifacts.length > 0 then
      lines ++ ["The following artifacts were generated:"]
        ++ (result.artifacts.map fun a =>
            "- type: " ++ a.type ++ " ; uri: "
              ++ get_artifact_uri
                  (if isabs (optStr a.file_name) || !use_local_uri then optStr a.file_name
                   else joinArtifactPath (optStr result.cwd) (optStr a.file_name))
                  use_local_uri
              ++ " ; description: " ++ optStr a.preview)
        ++ [""]
    else lines
  String.intercalate "\n"
    (lines.map fun l => String.mk (List.replicate indent (Char.ofNat 32)) ++ l)

/-- Attachment as built by the executor and verifier nodes: the generated
uuid is not modelled; `extra` carries the execution result for
`CODE_EXECUTION_RESULT` attachments. -/
structure EAttachment where
  type : AttachmentType
  content : String
  extra : Option ExecutionResult
  deriving DecidableEq

/-- Post as read and written by the executor node and the router edges.
`original_messages` entries are opaque serialized model messages. -/
structure EPost where
  send_from : String
  send_to : String
  message : String
  attachments : List EAttachment
  original_messages : Option (List String)
  deriving DecidableEq

/-- Decision logic of `code_executor_node` (lines 263-307): from the last
post, the current counter and the execution result, build the post appended
via `RoundUpdate` and the returned counter.  The leading asserts on the last
post are the source's; a failed execution always carries an error string
(`is_success` is defined as `error is None` by `_parse_exec_result`), and the
impossible failure-without-error case is mapped to the validation error
pydantic would raise on `message=None`. -/
def code_executor_node_update (last_post : EPost) (self_correction_count : Option Int)
    (result : ExecutionResult) : Except String (EPost × Option Int) :=
  if last_post.send_to ≠ "CodeExecutor" then
    .error "The latest post is not sent to CodeExecutor."
  else if last_post.send_from ≠ "CodeVerifier" then
    .error "The latest post is not from CodeVerifier."
  else if result.is_success then
    .ok ({ send_from := "CodeExecutor", send_to := "Planner",
           message := format_execution_result result 0 true none true,
           attachments := last_post.attachments ++
             [{ type := .CODE_EXECUTION_RESULT,
                content := format_execution_result result 0 false none true,
                extra := some result }],
           original_messages := last_post.original_messages },
         none)
  else
    match result.error with
    | none => .error "Post.message must be a string"
    | some err =>
        .ok ({ send_from := "CodeExecutor", send_to := "CodeGenerator",
               message := err,
               attachments := last_post.attachments ++
                 [{ type := .CODE_EXECUTION_RESULT,
                    content := format_execution_result result 0 false none true,
                    extra := some result }],
               original_messages := last_post.original_messages },
             bumpCount self_correction_count)

/-- Round status tags (`state/round.py`, `RoundStatus`). -/
inductive RoundStatus
  | created
  | finished
  | failed
  deriving DecidableEq

/-- Round as read by the router edges. -/
structure ERound where
  id : String
  user_query : String
  posts : List EPost
  status : RoundStatus
  deriving DecidableEq

/-- The `CodeInterpreterState` slice the router edges read. -/
structure CIState where
  rounds : List ERound
  self_correction_count : Option Int
  deriving DecidableEq

/-- Embedding of `CodeInterpreterState.get_rounds` with
`include_failure_rounds=False`: failed rounds are dropped and each kept
round's posts are filtered by the optional role (both router edges pass no
role, keeping every post). -/
def get_rounds (st : CIState) (role : Option String) : List ERound :=
  (st.rounds.filter fun r => !(r.status == .failed)).map fun r =>
    { r with posts := r.posts.filter fun p =>
        match role with
        | none => true
        | some ro => p.send_from == ro || p.send_to == ro }

/-- Target of a router edge: the langgraph `END` sentinel or a named node. -/
inductive Route
  | terminal
  | node (name : String)
  deriving DecidableEq

/-- Embedding of `code_executor_router_edge`. -/
def code_executor_router_edge (st : CIState) : Except String Route :=
  let rounds := get_rounds st none
  match rounds.getLast? with
  | none => .error "No round found for CodeExecutor."
  | some last_round =>
    match last_round.posts.getLast? with
    | none => .error "No post found for CodeExecutor."
    | some last_post =>
      if last_post.send_from ≠ "CodeExecutor" then
        .error "Last post is not from CodeExecutor."
      else if last_post.send_to = "Planner" then
        .ok .terminal
      else if last_post.send_to = "CodeGenerator" then
        match st.self_correction_count with
        | none => .ok (.node "code_generator_node")
        | some n => if n ≤ 3 then .ok (.node "code_generator_node") else .ok .terminal
      else
        .error ("Invalid post to: " ++ last_post.send_to)

/-- Embedding of `code_verifier_router_edge`. -/
def code_verifier_router_edge (st : CIState) : Except String Route :=
  let rounds := get_rounds st none
  match rounds.getLast? with
  | none => .error "No round found for CodeVerifier."
  | some last_round =>
    match last_round.posts.getLast? with
    | none => .error "No post found for CodeVerifier."
    | some last_post =>
      if last_post.send_from ≠ "CodeVerifier" then
        .error "Last post is not from CodeVerifier."
      else if last_post.send_to = "CodeGenerator" then
        match st.self_correction_count with
        | none => .ok (.node "code_generator_node")
        | some n => if n ≤ 3 then .ok (.node "code_generator_node") else .ok .terminal
      else if last_post.send_to = "CodeExecutor" then
        .ok (.node "code_executor_node")
      else
        .error ("Invalid post to: " ++ last_post.send_to)

/-- An execution result that always fails, used to drive the worst-case
self-correction loop. -/
def failingResult : ExecutionResult :=
  { exec_id := "exec-1", code := "raise RuntimeError()", cwd := none,
    is_success := false, error := some "RuntimeError", output := .noneV,
    stdout := [], stderr := [], logs := [], artifacts := [] }

/-- The last post of the round after a failed execution: the executor
addresses the code generator. -/
def execFailPost : EPost :=
  { send_from := "CodeExecutor", send_to := "CodeGenerator",
    message := "RuntimeError", attachments := [], original_messages := none }

/-- Canonical state the router inspects after a failed execution with the
given counter. -/
def stWith (c : Option Int) : CIState :=
  { rounds := [{ id := "r1", user_query := "q", posts := [execFailPost],
                 status := .created }],
    self_correction_count := c }

/-- Worst-case attempt counter: every execution fails, the executor node
bumps the counter (`bumpCount`), and the executor router edge decides
whether the generator re-runs (leading to another execution) or the turn
terminates.  Returns the number of executions performed, given enough
fuel. -/
def attemptsFrom : Nat → Option Int → Nat
  | 0, _ => 0
  | fuel + 1, c =>
    let c1 := bumpCount c
    match code_executor_router_edge (stWith c1) with
    | .ok (.node _) => 1 + attemptsFrom fuel c1
    | _ => 1

/-- Concrete last post for the C3 witness: the verifier forwards code to the
executor. -/
def c3Post : EPost :=
  { send_from := "CodeVerifier", send_to := "CodeExecutor",
    message := "print(1)", attachments := [], original_messages := none }

/-- Concrete successful execution result for the C3 witness. -/
def c3Result : ExecutionResult :=
  { exec_id := "exec-1", code := "print(1)", cwd := some "/work",
    is_success := true, error := none, output := .noneV,
    stdout := ["1\n"], stderr := [], logs := [], artifacts := [] }

/-- Concrete failing input for claim C1: the single line `import os`
verified under `allowed_modules=["math"]`. -/
def c1Policy : Policy :=
  { allowed_modules := some ["math"], blocked_modules := none,
    allowed_functions := none, blocked_functions := none,
    allowed_variables := none, blocked_variables := none }

/-- Concrete code for claim C1. -/
def c1Code : List SrcLine := [.python (.imp ["os"])]

/-- Concrete code for the C10 witness: a shell-escape line followed by an
import. -/
def c10Code : List SrcLine := [.shell "!pip install numpy", .python (.imp ["os"])]

/-- Concrete policy for claim C9: both module lists set. -/
def c9Policy : Policy :=
  { allowed_modules := some ["math"], blocked_modules := some ["os"],
    allowed_functions := none, blocked_functions := none,
    allowed_variables := none, blocked_variables := none }

/-- Concrete code for claim C9. -/
def c9Code : List SrcLine := [.python (.imp ["os"])]

/-! ## Execution session engine
(`nodes/code_executor/session/environment.py`, `session/client.py`)

The environment owns the per-session worker processes.  Worker spawning and
the control-command channel are modelled as event logs on the environment
state: `spawned_kernels` records every kernel id passed to the kernel
manager, `cmds` records every control command issued, and the worker's
replies are modelled as successful (the claims concern which calls are
issued, not the worker's behaviour).  Filesystem effects (`os.makedirs`,
`os.path.realpath`/`abspath`) are modelled as identities on the path
strings. -/

/-- Worker lifecycle status (`session/common.py`, `Session.kernel_status`). -/
inductive KernelStatus
  | pending
  | ready
  | running
  | stopped
  | error
  deriving DecidableEq

/-- Worker-side plugin record (`session/common.py`, `Plugin`). -/
structure SessionPlugin where
  name : String
  package : String
  config : Option (List (String × String))
  loaded : Bool
  deriving DecidableEq

/-- Session record (`session/common.py`, `Session`).  The transport client
and the per-execution result cache are not modelled. -/
structure Session where
  session_id : String
  session_dir : String
  cwd : String
  session_vars : List (String × String)
  kernel_id : Option String
  kernel_status : KernelStatus
  plugins : List (String × SessionPlugin)
  execution_count : Int
  deriving DecidableEq

/-- Control commands issued to a worker over the reserved channel (the
`%_scimate_*` magics), each carrying the data interpolated into the magic
invocation. -/
inductive KernelCmd
  | sessionInit (session_id : String)
  | updateSessionVars (vars : List (String × String))
  | registerPlugin (name : String) (package : String)
  | configurePlugin (name : String) (config : Option (List (String × String)))
  | testPlugin (name : String)
  | unloadPlugin (name : String)
  | preCheck (exec_id : String) (index : Int)
  | postCheck (exec_id : String) (index : Int)
  deriving DecidableEq

/-- Environment state (`Environment`): the session registry plus the event
logs for kernel spawns and control commands.  `next_id` feeds `get_id`,
whose generated ids are modelled as a counter. -/
structure EnvState where
  env_id : String
  env_dir : String
  session_dict : List (String × Session)
  spawned_kernels : List String
  cmds : List (String × KernelCmd)
  next_id : Nat
  deriving DecidableEq

/-- Embedding of `get_id(prefix=...)`: a fresh id with the given text
prefix, drawn from the environment counter. -/
def get_id (pre : String) (n : Nat) : String := pre ++ "-" ++ toString n

/-- Update-or-insert into a Python dict modelled as an association list. -/
def setAssoc {α : Type} (k : String) (v : α) : List (String × α) → List (String × α)
  | [] => [(k, v)]
  | (k2, v2) :: rest => if k2 = k then (k, v) :: rest else (k2, v2) :: setAssoc k v rest

/-- Deletion from a Python dict modelled as an association list. -/
def eraseAssoc {α : Type} (k : String) : List (String × α) → List (String × α)
  | [] => []
  | (k2, v2) :: rest => if k2 = k then rest else (k2, v2) :: eraseAssoc k rest

/-- Embedding of `Environment._get_session`: create the session lazily when
it is unknown and a `session_dir` is supplied (with `cwd` defaulting to
`<session_dir>/cwd`), then return the registry entry. -/
def EnvState.getSession (env : EnvState) (session_id : String)
    (session_dir cwd : Option String) : EnvState × Option Session :=
  match env.session_dict.lookup session_id with
  | some s => (env, some s)
  | none =>
    match session_dir with
    | none => (env, none)
    | some sdir =>
      let cwd1 := match cwd with
        | some c => c
        | none => sdir ++ "/cwd"
      let s : Session :=
        { session_id := session_id, session_dir := sdir, cwd := cwd1,
          session_vars := [], kernel_id := none, kernel_status := .pending,
          plugins := [], execution_count := 0 }
      ({ env with session_dict := setAssoc session_id s env.session_dict }, some s)

/-- Embedding of `Environment.start_session`: resolve (or create) the
session, allocate a fresh kernel id, spawn the kernel, run the
`%_scimate_session_init` handshake, and mark the session ready.  The source
performs these steps unconditionally — there is no check of the current
`kernel_status`.  A missing session (no `session_dir` to create it from)
surfaces as the `AttributeError` the source would raise on
`session.session_dir`. -/
def EnvState.start_session (env0 : EnvState) (session_id : String)
    (session_dir cwd : Option String) : Except String EnvState :=
  let r := env0.getSession session_id session_dir cwd
  match r.2 with
  | none => .error "AttributeError: NoneType object has no attribute session_dir"
  | some s =>
    let new_kernel_id := get_id "knl" r.1.next_id
    let env2 := { r.1 with next_id := r.1.next_id + 1 }
    let env3 := { env2 with spawned_kernels := env2.spawned_kernels ++ [new_kernel_id] }
    let s1 := { s with kernel_id := some new_kernel_id }
    let env4 := { env3 with session_dict := setAssoc session_id s1 env3.session_dict }
    let env5 := { env4 with cmds := env4.cmds ++ [(session_id, KernelCmd.sessionInit session_id)] }
    let s2 := { s1 with kernel_status := .ready }
    .ok { env5 with session_dict := setAssoc session_id s2 env5.session_dict }

/-- Embedding of `Environment.load_plugin`: unload any previously loaded
plugin of the same name, then issue the `register` and `configure` control
commands and record the plugin as loaded.  `plugin_package` stands for the
result of `plugin_loader()`; the base64 transport encoding is not
modelled. -/
def EnvState.load_plugin (env : EnvState) (session_id plugin_name plugin_package : String)
    (plugin_config : Option (List (String × String))) : Except String EnvState :=
  match env.session_dict.lookup session_id with
  | none => .error ("Session " ++ session_id ++ " not found")
  | some s =>
    let r :=
      match s.plugins.lookup plugin_name with
      | some prev =>
        let envA :=
          if prev.loaded then
            { env with cmds := env.cmds ++ [(session_id, KernelCmd.unloadPlugin plugin_name)] }
          else env
        (envA, { s with plugins := eraseAssoc plugin_name s.plugins })
      | none => (env, s)
    let plugin : SessionPlugin :=
      { name := plugin_name, package := plugin_package,
        config := plugin_config, loaded := true }
    let envB := { r.1 with cmds := r.1.cmds ++
      [(session_id, KernelCmd.registerPlugin plugin_name plugin_package),
       (session_id, KernelCmd.configurePlugin plugin_name plugin_config)] }
    let sNew := { r.2 with plugins := setAssoc plugin_name plugin r.2.plugins }
    .ok { envB with session_dict := setAssoc session_id sNew envB.session_dict }

/-- The session client state (`session/client.py`, `SessionClient`):
a handle on the environment plus the set of plugin content hashes already
injected for this session. -/
structure ClientState where
  env : EnvState
  session_id : String
  session_dir : String
  cwd : String
  loaded_plugins : List String
  deriving DecidableEq

/-- Embedding of `plugin_hashsum is not None and plugin_hashsum in
self.loaded_plugins`. -/
def hashsumLoaded (loaded : List String) : Option String → Bool
  | some h => loaded.contains h
  | none => false

/-- Embedding of `SessionClient.load_plugin`: skip entirely when the hashsum
is already recorded; otherwise delegate to the environment and record the
hashsum. -/
def ClientState.load_plugin (c : ClientState) (plugin_name plugin_package : String)
    (plugin_config : Option (List (String × String))) (plugin_hashsum : Option String) :
    Except String ClientState :=
  if hashsumLoaded c.loaded_plugins plugin_hashsum then .ok c
  else
    match c.env.load_plugin c.session_id plugin_name plugin_package plugin_config with
    | .error e => .error e
    | .ok env1 =>
      let lp := match plugin_hashsum with
        | some h => c.loaded_plugins ++ [h]
        | none => c.loaded_plugins
      .ok { c with env := env1, loaded_plugins := lp }

/-- Test whether a logged control command is the plugin-register injection
for the given session, plugin name and package. -/
def isRegisterFor (session_id name pkg : String) : String × KernelCmd → Bool
  | (sid, .registerPlugin n p) => sid == session_id && n == name && p == pkg
  | _ => false

/-- Number of plugin-register injections for the given session, name and
package in a command log. -/
def countRegister (cmds : List (String × KernelCmd)) (session_id name pkg : String) : Nat :=
  (cmds.filter (isRegisterFor session_id name pkg)).length

/-! ## Event emitter (`event.py`)

Subscriptions pair a glob pattern with a callback; `emit` walks the listener
list once, awaiting every callback whose pattern matches the (wildcard-free)
event name.  Patterns are embedded structurally as token lists (`fnmatch`
with literals, `*` and `?`; bracket expressions are not used by this
repository).  Callbacks are identified by opaque numbers; `emit` returns the
identities of the callbacks invoked, in order. -/

/-- One token of an `fnmatch` glob pattern. -/
inductive GlobTok
  | lit (c : Char)
  | star
  | qmark
  deriving DecidableEq

/-- Glob patterns as token lists. -/
abbrev GlobPat := List GlobTok

/-- Fuel-indexed worker for the glob matcher (structural recursion on the
fuel so that evaluation reduces definitionally).  Every recursive call
shortens the pattern or the string, so `p.length + s.length + 1` units of
fuel always suffice. -/
def globMatchFuel : Nat → GlobPat → List Char → Bool
  | 0, _, _ => false
  | _ + 1, [], [] => true
  | _ + 1, [], _ :: _ => false
  | _ + 1, .lit _ :: _, [] => false
  | fuel + 1, .lit c :: ps, x :: xs => c == x && globMatchFuel fuel ps xs
  | _ + 1, .qmark :: _, [] => false
  | fuel + 1, .qmark :: ps, _ :: xs => globMatchFuel fuel ps xs
  | fuel + 1, .star :: ps, [] => globMatchFuel fuel ps []
  | fuel + 1, .star :: ps, x :: xs =>
      globMatchFuel fuel ps (x :: xs) || globMatchFuel fuel (.star :: ps) xs

/-- Embedding of `fnmatch.fnmatch(name, pattern)` on POSIX (no case
folding): `*` matches any run of characters, `?` exactly one. -/
def globMatch (p : GlobPat) (s : List Char) : Bool :=
  globMatchFuel (p.length + s.length + 1) p s

/-- One registered listener (`event.py`, `Listener`): subscription pattern,
opaque callback identity, one-shot flag. -/
structure Listener where
  event_name : GlobPat
  callback : Nat
  once : Bool
  deriving DecidableEq

/-- Emitter state: the listener list, in registration order. -/
structure EventEmitter where
  listeners : List Listener
  deriving DecidableEq

/-- The loop body of `EventEmitter.emit`: walk the listeners in order,
invoke (record) each one whose pattern matches the name, and rebuild the
retained list.  A listener is retained only when it matched and is not
one-shot — the source appends to the rebuilt list only inside the match
branch. -/
def emitLoop (name : List Char) : List Listener → List Nat × List Listener
  | [] => ([], [])
  | l :: rest =>
    let r := emitLoop name rest
    if globMatch l.event_name name then
      (l.callback :: r.1, if !l.once then l :: r.2 else r.2)
    else
      r

/-- Embedding of `EventEmitter.emit`: assert the name non-empty and
wildcard-free, invoke the matching callbacks, and replace the listener list
with the rebuilt one. -/
def EventEmitter.emit (em : EventEmitter) (name : List Char) :
    Except String (List Nat × EventEmitter) :=
  if name.isEmpty then .error "event name can not be empty."
  else if name.contains (Char.ofNat 42) then
    .error "event name can not contain wildcard: *."
  else if name.contains (Char.ofNat 63) then
    .error "event name can not contain wildcard: ?."
  else
    let r := emitLoop name em.listeners
    .ok (r.1, { listeners := r.2 })

/-- Concrete emitter for the C8 failing input: a persistent listener on
pattern `a` (callback 0) and a persistent listener on pattern `b`
(callback 1). -/
def c8Emitter : EventEmitter :=
  { listeners :=
      [{ event_name := [.lit (Char.ofNat 97)], callback := 0, once := false },
       { event_name := [.lit (Char.ofNat 98)], callback := 1, once := false }] }

/-! ## Conversation merge engine as a heap model
(`state/round.py`, `update_rounds`; `state/post.py`, `Post.update`,
`PostUpdate.to_post`)

The purity claims are about Python object mutation, so this part models the
objects explicitly: a heap is a list of cells addressed by allocation order,
and every Python object involved (list objects, `Round`, `Post`,
`PostUpdate`, `RoundUpdate`, plus opaque `Attachment` and serialized-message
objects) is a cell.  Attribute assignment is a `write`, object construction
an `alloc`; pydantic v2 semantics are followed: `model_copy()` is a shallow
copy (one fresh cell sharing field references), the model constructor
validates and copies list fields (fresh list cell holding the same element
references), and constructing a `Round` whose `posts` contain a non-`Post`
raises a validation error.  `uuid4` is modelled as a counter derived from
the heap size - generated id text is never inspected. -/

/-- Heap address. -/
abbrev Ref := Nat

/-- Round object fields (`state/round.py`, `Round`): `posts` refers to a
list cell. -/
structure RoundObj where
  id : String
  user_query : String
  posts : Ref
  status : RoundStatus
  deriving DecidableEq

/-- Post object fields (`state/post.py`, `Post`): `attachments` and
`original_messages` refer to list cells. -/
structure PostObj where
  id : String
  send_from : String
  send_to : String
  message : String
  attachments : Ref
  original_messages : Option Ref
  deriving DecidableEq

/-- PostUpdate object fields (`state/post.py`, `PostUpdate`).  The
`attachments` field is mutable: `to_post` assigns `[]` to it when it is
`None`. -/
structure PostUpdObj where
  id : String
  send_from : Option String
  send_to : Option String
  message : Option String
  attachments : Option Ref
  original_messages : Option Ref
  deriving DecidableEq

/-- RoundUpdate object fields (`state/round.py`, `RoundUpdate`). -/
structure RoundUpdObj where
  id : Option String
  user_query : Option String
  posts : Option Ref
  status : Option RoundStatus
  deriving DecidableEq

/-- One heap cell: a Python object of one of the kinds `update_rounds`
touches.  `att` and `msg` are opaque `Attachment` and serialized-message
objects (they are only ever moved between lists, never read). -/
inductive Cell
  | list (elems : List Ref)
  | round (r : RoundObj)
  | post (p : PostObj)
  | postUpd (u : PostUpdObj)
  | roundUpd (u : RoundUpdObj)
  | att (token : Nat)
  | msg (token : Nat)
  deriving DecidableEq

/-- The heap: cells in allocation order. -/
structure Heap where
  cells : List Cell
  deriving DecidableEq

/-- Number of allocated cells; references below this bound are live. -/
def Heap.size (h : Heap) : Nat := h.cells.length

/-- Dereference. -/
def Heap.read (h : Heap) (r : Ref) : Option Cell := h.cells[r]?

/-- Attribute assignment / in-place list mutation on an existing object. -/
def Heap.write (h : Heap) (r : Ref) (c : Cell) : Heap := ⟨h.cells.set r c⟩

/-- Object construction: returns the fresh reference and the grown heap. -/
def Heap.alloc (h : Heap) (c : Cell) : Ref × Heap := (h.cells.length, ⟨h.cells ++ [c]⟩)

/-- Dereference expecting a list object. -/
def Heap.readList (h : Heap) (r : Ref) : Except String (List Ref) :=
  match h.read r with
  | some (.list es) => .ok es
  | _ => .error "TypeError: expected a list object"

/-- Dereference expecting a Round. -/
def Heap.readRound (h : Heap) (r : Ref) : Except String RoundObj :=
  match h.read r with
  | some (.round ro) => .ok ro
  | _ => .error "AttributeError: expected a Round object"

/-- Dereference expecting a Post. -/
def Heap.readPost (h : Heap) (r : Ref) : Except String PostObj :=
  match h.read r with
  | some (.post p) => .ok p
  | _ => .error "AttributeError: expected a Post object"

/-- Dereference expecting a PostUpdate. -/
def Heap.readPostUpd (h : Heap) (r : Ref) : Except String PostUpdObj :=
  match h.read r with
  | some (.postUpd u) => .ok u
  | _ => .error "AttributeError: expected a PostUpdate object"

/-- Dereference expecting any object. -/
def Heap.readCell (h : Heap) (r : Ref) : Except String Cell :=
  match h.read r with
  | some c => .ok c
  | none => .error "invalid reference"

/-- In-place `list.append`. -/
def Heap.listAppend (h : Heap) (r : Ref) (x : Ref) : Except String Heap :=
  match h.readList r with
  | .error e => .error e
  | .ok es => .ok (h.write r (.list (es ++ [x])))

/-- Stand-in for `str(uuid.uuid4())`, deterministic from the heap size. -/
def genUuid (h : Heap) : String := "uuid-" ++ toString h.size

/-- Embedding of `Post.new` under pydantic construction: allocate fresh
list cells copying the given `attachments` and `original_messages`
contents, then allocate the Post.  (`original_messages` entries are plain
dicts here, so the `to_json` mapping is the identity on references.) -/
def Post_new (h : Heap) (id send_from send_to message : String)
    (attachments : List Ref) (original_messages : Option (List Ref)) : Ref × Heap :=
  let a := h.alloc (.list attachments)
  match original_messages with
  | none =>
    a.2.alloc (.post
      { id := id, send_from := send_from, send_to := send_to, message := message,
        attachments := a.1, original_messages := none })
  | some msgs =>
    let m := a.2.alloc (.list msgs)
    m.2.alloc (.post
      { id := id, send_from := send_from, send_to := send_to, message := message,
        attachments := a.1, original_messages := some m.1 })

/-- The `if update.attachments is not None: post.attachments =
post.attachments + update.attachments` step of `Post.update`: list `+`
allocates a fresh list, the attribute assignment rebinds the fresh post's
field. -/
def postUpdateAtts (h : Heap) (pRef : Ref) (ua : Option Ref) : Except String Heap :=
  match ua with
  | none => .ok h
  | some uaRef =>
    match h.readPost pRef with
    | .error e => .error e
    | .ok p1 =>
      match h.readList p1.attachments with
      | .error e => .error e
      | .ok cur =>
        match h.readList uaRef with
        | .error e => .error e
        | .ok uas =>
          let na := h.alloc (.list (cur ++ uas))
          .ok (na.2.write pRef (.post { p1 with attachments := na.1 }))

/-- The `original_messages` merge step of `Post.update`: normalize a `None`
field to a fresh `[]` first, then concatenate into a fresh list and rebind
the fresh post's field. -/
def postUpdateOms (h : Heap) (pRef : Ref) (um : Option Ref) : Except String Heap :=
  match um with
  | none => .ok h
  | some umRef =>
    match h.readPost pRef with
    | .error e => .error e
    | .ok p2 =>
      match p2.original_messages with
      | some omr =>
        match h.readList omr with
        | .error e => .error e
        | .ok cur =>
          match h.readList umRef with
          | .error e => .error e
          | .ok ums =>
            let nm := h.alloc (.list (cur ++ ums))
            .ok (nm.2.write pRef (.post { p2 with original_messages := some nm.1 }))
      | none =>
        match h.alloc (.list []) with
        | (neRef, hne) =>
          match (hne.write pRef (.post { p2 with original_messages := some neRef })).readList umRef with
          | .error e => .error e
          | .ok ums =>
            let nm := (hne.write pRef (.post { p2 with original_messages := some neRef })).alloc
              (.list (([] : List Ref) ++ ums))
            .ok (nm.2.write pRef (.post { p2 with original_messages := some nm.1 }))

/-- Embedding of `Post.update`: build a fresh Post via `Post.new` from the
receiver's fields overridden by the update's set fields, then apply the
additive attachment and message merges to the fresh post only.  The
receiver is read, never written. -/
def Post_update (h : Heap) (selfRef : Ref) (u : PostUpdObj) : Except String (Ref × Heap) :=
  match h.readPost selfRef with
  | .error e => .error e
  | .ok self =>
    if u.id ≠ self.id then .error "PostUpdate.id does not match the post id"
    else
      match h.readList self.attachments with
      | .error e => .error e
      | .ok atts =>
        match (match self.original_messages with
               | none => Except.ok none
               | some mr => (h.readList mr).map some) with
        | .error e => .error e
        | .ok oms =>
          match Post_new h self.id (u.send_from.getD self.send_from)
            (u.send_to.getD self.send_to) (u.message.getD self.message) atts oms with
          | (pRef, hpn) =>
            match postUpdateAtts hpn pRef u.attachments with
            | .error e => .error e
            | .ok h2 =>
              match postUpdateOms h2 pRef u.original_messages with
              | .error e => .error e
              | .ok h4 => .ok (pRef, h4)

/-- Embedding of `PostUpdate.to_post`: check required fields, normalize a
`None` `attachments` to `[]` IN PLACE on the update object (the source's
`self.attachments = []`), then build the Post via `Post.new`. -/
def PostUpd_to_post (h : Heap) (updRef : Ref) : Except String (Ref × Heap) :=
  match h.readPostUpd updRef with
  | .error e => .error e
  | .ok u =>
    match u.send_from with
    | none => .error "send_from is required"
    | some sf =>
      match u.send_to with
      | none => .error "send_to is required"
      | some st =>
        match u.message with
        | none => .error "message is required"
        | some msg =>
          match (match u.attachments with
                 | some ar => ((h, ar) : Heap × Ref)
                 | none =>
                   match h.alloc (.list []) with
                   | (neRef, hne) =>
                     (hne.write updRef (.postUpd { u with attachments := some neRef }), neRef)) with
          | (h1, attsRef) =>
            match h1.readList attsRef with
            | .error e => .error e
            | .ok atts =>
              match (match u.original_messages with
                     | none => Except.ok none
                     | some mr => (h1.readList mr).map some) with
              | .error e => .error e
              | .ok oms => .ok (Post_new h1 u.id sf st msg atts oms)

/-- Duck-typed read of the update fields, accepting both `RoundUpdate` and
`Round` values (the source's isinstance check over the updates list). -/
def updFieldsOf : Cell → Except String RoundUpdObj
  | .roundUpd u => .ok u
  | .round r => .ok
      { id := some r.id, user_query := some r.user_query,
        posts := some r.posts, status := some r.status }
  | _ => .error "updates must be a list of RoundUpdate or Round"

/-- Embedding of the `next(((i, r) for i, r in enumerate(rounds) if r.id ==
update.id), (None, None))` round resolution: first index whose Round has the
given id. -/
def findRound (h : Heap) (uid : String) : List Ref → Nat →
    Except String (Option (Nat × Ref × RoundObj))
  | [], _ => .ok none
  | r :: rest, i =>
    match h.readRound r with
    | .error e => .error e
    | .ok ro => if ro.id = uid then .ok (some (i, r, ro)) else findRound h uid rest (i + 1)

/-- Embedding of `{p.id: p for p in new_posts}` (later entries override
earlier ones, as in a dict comprehension). -/
def buildExisting (h : Heap) : List Ref → List (String × Ref) →
    Except String (List (String × Ref))
  | [], acc => .ok acc
  | r :: rest, acc =>
    match h.readPost r with
    | .error e => .error e
    | .ok p => buildExisting h rest (setAssoc p.id r acc)

/-- Pydantic validation of a `Round`'s `posts` list: every element must be a
Post instance. -/
def validatePosts (h : Heap) : List Ref → Except String Unit
  | [] => .ok ()
  | r :: rest =>
    match h.read r with
    | some (.post _) => validatePosts h rest
    | _ => .error "ValidationError: posts entries must be Post instances"

/-- Embedding of the `for post in update.posts` loop of `update_rounds`:
a `PostUpdate` with a known id is merged via `Post.update` into the LOCAL
`existing_posts` dict only (the source never writes the merged post back
into `new_posts`); a `PostUpdate` with a fresh id is converted by `to_post`
and appended; a `Post` is appended as-is. -/
def processPosts (h : Heap) (npRef : Ref) (existing : List (String × Ref)) :
    List Ref → Except String Heap
  | [] => .ok h
  | e :: rest =>
    match h.readCell e with
    | .error err => .error err
    | .ok (.postUpd pu) =>
      match existing.lookup pu.id with
      | some selfRef =>
        match Post_update h selfRef pu with
        | .error err => .error err
        | .ok r => processPosts r.2 npRef (setAssoc pu.id r.1 existing) rest
      | none =>
        match PostUpd_to_post h e with
        | .error err => .error err
        | .ok r =>
          match r.2.listAppend npRef r.1 with
          | .error err => .error err
          | .ok h2 => processPosts h2 npRef existing rest
    | .ok (.post _) =>
      match h.listAppend npRef e with
      | .error err => .error err
      | .ok h2 => processPosts h2 npRef existing rest
    | .ok _ => .error "Invalid post"

/-- The `if update.user_query is not None: new_round.user_query = ...` step
of the merge branch, on the freshly copied round. -/
def mergeUserQuery (h1 : Heap) (nrRef : Ref) (ro : RoundObj) (uq : Option String) : Heap :=
  match uq with
  | none => h1
  | some q => h1.write nrRef (.round { ro with user_query := q })

/-- The `if update.posts is not None: ...` block of the merge branch: copy
the (shared) posts list into a fresh list, build the id-keyed dict, process
the update's posts, and rebind the fresh round's `posts` field. -/
def mergePosts (h2 : Heap) (nrRef : Ref) (uposts : Option Ref) : Except String Heap :=
  match uposts with
  | none => .ok h2
  | some upr =>
    match h2.readRound nrRef with
    | .error e => .error e
    | .ok ro =>
      match h2.readList ro.posts with
      | .error e => .error e
      | .ok oldPosts =>
        match h2.alloc (.list oldPosts) with
        | (npRef, hnp) =>
          match buildExisting hnp oldPosts [] with
          | .error e => .error e
          | .ok existing =>
            match hnp.readList upr with
            | .error e => .error e
            | .ok upostRefs =>
              match processPosts hnp npRef existing upostRefs with
              | .error e => .error e
              | .ok hh =>
                match hh.readRound nrRef with
                | .error e => .error e
                | .ok ro2 => .ok (hh.write nrRef (.round { ro2 with posts := npRef }))

/-- The `if update.status is not None: new_round.status = update.status`
step of the merge branch — applied unconditionally, with no forward-only
check. -/
def mergeStatus (h3 : Heap) (nrRef : Ref) (ustat : Option RoundStatus) : Except String Heap :=
  match ustat with
  | none => .ok h3
  | some st =>
    match h3.readRound nrRef with
    | .error e => .error e
    | .ok ro3 => .ok (h3.write nrRef (.round { ro3 with status := st }))

/-- Application of one update from `update_rounds`: resolve the round by id
(create a new round when unresolved, requiring `user_query`), or merge into
a `model_copy` of the existing round, replacing the copy's slot in the
(already copied) rounds list. -/
def applyOneUpdate (h : Heap) (copyRef : Ref) (updRef : Ref) : Except String Heap :=
  match h.readCell updRef with
  | .error e => .error e
  | .ok c =>
    match updFieldsOf c with
    | .error e => .error e
    | .ok u =>
      match h.readList copyRef with
      | .error e => .error e
      | .ok rs =>
        match (match u.id with
               | none => Except.ok none
               | some uid => findRound h uid rs 0) with
        | .error e => .error e
        | .ok none =>
          match u.user_query with
          | none => .error "user_query is required"
          | some uq =>
            match (match u.posts with
                   | none => Except.ok ([] : List Ref)
                   | some pr => h.readList pr) with
            | .error e => .error e
            | .ok postsElems =>
              match validatePosts h postsElems with
              | .error e => .error e
              | .ok _ =>
                let np := h.alloc (.list postsElems)
                let rid := match u.id with
                  | some i => i
                  | none => genUuid np.2
                let nr := np.2.alloc (.round
                  { id := rid, user_query := uq, posts := np.1,
                    status := u.status.getD .created })
                nr.2.listAppend copyRef nr.1
        | .ok (some f) =>
          match h.alloc (.round f.2.2) with
          | (nrRef, h1) =>
            match mergePosts (mergeUserQuery h1 nrRef f.2.2 u.user_query) nrRef u.posts with
            | .error e => .error e
            | .ok h3 =>
              match mergeStatus h3 nrRef u.status with
              | .error e => .error e
              | .ok h4 =>
                match h4.readList copyRef with
                | .error e => .error e
                | .ok rs2 => .ok (h4.write copyRef (.list (rs2.set f.1 nrRef)))

/-- Folding the update list (`for update in updates`). -/
def applyUpdates (h : Heap) (copyRef : Ref) : List Ref → Except String Heap
  | [] => .ok h
  | u :: rest =>
    match applyOneUpdate h copyRef u with
    | .error e => .error e
    | .ok h1 => applyUpdates h1 copyRef rest

/-- Embedding of `update_rounds`: shallow-copy the rounds list
(`rounds.copy()`), fold the updates into the copy, return the copy's
reference. -/
def update_rounds_heap (h : Heap) (roundsRef : Ref) (updates : List Ref) :
    Except String (Ref × Heap) :=
  match h.readList roundsRef with
  | .error e => .error e
  | .ok rs =>
    match h.alloc (.list rs) with
    | (cpRef, h1) =>
      match applyUpdates h1 cpRef updates with
      | .error e => .error e
      | .ok h2 => .ok (cpRef, h2)

/-- Test for the PostUpdate cell kind (the one kind of pre-existing cell
`update_rounds` writes to, via `to_post`). -/
def Cell.isPostUpd : Cell → Bool
  | .postUpd _ => true
  | _ => false

/-- Frame relation: the heap has only grown, and every live cell below the
bound `B` that is not a PostUpdate object is unchanged. -/
def Frame (B : Nat) (h h2 : Heap) : Prop :=
  h.size ≤ h2.size
    ∧ ∀ r c, r < B → h.read r = some c → c.isPostUpd = false → h2.read r = some c

/-- Concrete heap for the C4 counterexample: a rounds list with one round
(empty posts), and one RoundUpdate carrying a PostUpdate with a fresh post
id and `attachments=None`. -/
def c4h0 : Heap :=
  ⟨[.list [1],
    .round { id := "r1", user_query := "q", posts := 2, status := .created },
    .list [],
    .roundUpd { id := some "r1", user_query := none, posts := some 4, status := none },
    .list [5],
    .postUpd { id := "p1", send_from := some "User", send_to := some "Planner",
               message := some "hello", attachments := none, original_messages := none }]⟩

/-- Concrete heap for the C5 counterexample: one FINISHED round and a
RoundUpdate carrying `status="created"`. -/
def c5h0 : Heap :=
  ⟨[.list [1],
    .round { id := "r1", user_query := "q", posts := 2, status := .finished },
    .list [],
    .roundUpd { id := some "r1", user_query := none, posts := none, status := some .created }]⟩

/-- Concrete fresh environment for the C6 counterexample. -/
def c6Env0 : EnvState :=
  { env_id := "env-1", env_dir := "/envs", session_dict := [],
    spawned_kernels := [], cmds := [], next_id := 0 }

/-- Concrete ready session for the C7 witness. -/
def c7Session : Session :=
  { session_id := "s1", session_dir := "/d", cwd := "/d/cwd",
    session_vars := [], kernel_id := some "knl-0", kernel_status := .ready,
    plugins := [], execution_count := 0 }

/-- Concrete environment for the C7 witness. -/
def c7Env : EnvState :=
  { env_id := "env-1", env_dir := "/envs", session_dict := [("s1", c7Session)],
    spawned_kernels := ["knl-0"], cmds := [], next_id := 1 }

/-- Concrete session client for the C7 witness. -/
def c7Client0 : ClientState :=
  { env := c7Env, session_id := "s1", session_dir := "/d", cwd := "/d/cwd",
    loaded_plugins := [] }

end SciMate

namespace SciMate

/-! ### Theorems for the verifier claims -/

/-- Claim C1 (code bug evaluation): with `allowed_modules=["math"]` and
`blocked_modules` unset, the code `import os` produces NO diagnostic at all:
`_is_allowed_module_import` returns True whenever `blocked_modules` is None,
because its allow-list conjunct can only return True and the fall-through
default is True.  The claim (and the spec) require exactly one diagnostic
citing the line and the module. -/
theorem c1_code_bug_eval :
    is_allowed_module_import c1Policy "os" = true
      ∧ apply_code_verification c1Policy c1Code = [] := by
  constructor <;> decide

/-- Claim C9 (counterexample): with both `allowed_modules` and
`blocked_modules` set, verification does not surface an error to the caller:
the `AssertionError` raised by `FunctionCallValidator.__init__` is caught by
the surrounding `except Exception` and returned inside the ordinary
diagnostic list, labelled as a syntax error. -/
theorem c9_counterexample :
    apply_code_verification c9Policy c9Code =
      [.syntaxError "Only one of allowed_modules or blocked_modules can be set."] := by
  rfl

/-- Claim C9 (amended): for every policy in which both lists of the same
pair are set — the modules pair, the functions pair, or the variables pair —
and every code, `apply_code_verification` returns normally: the failing
assert of `FunctionCallValidator.__init__` produces an `AssertionError`
message `m`, and the returned diagnostic list is the magic diagnostic (if
any) followed by `m` converted into a `Syntax error:` diagnostic; the
policy walk is skipped. -/
theorem c9_policy_conflict_becomes_diagnostic (p : Policy) (code : List SrcLine)
    (h : ((p.allowed_modules.isSome && p.blocked_modules.isSome)
        || (p.allowed_functions.isSome && p.blocked_functions.isSome)
        || (p.allowed_variables.isSome && p.blocked_variables.isSome)) = true) :
    ∃ m : String, validatorAsserts p = .error m
      ∧ apply_code_verification p code =
        (if (seperate_code_lines code).1.length > 0 then [VerifyError.magicsNotAllowed] else [])
          ++ [.syntaxError m] := by
  rcases hva : validatorAsserts p with m | u
  · refine ⟨m, rfl, ?_⟩
    unfold apply_code_verification
    rw [hva]
  · exfalso
    unfold validatorAsserts at hva
    split_ifs at hva with h1 h2 h3 <;>
      first
        | exact Except.noConfusion hva
        | (simp only [Bool.or_eq_true] at h
           rcases h with (hc | hc) | hc
           · exact h1 hc
           · exact h2 hc
           · exact h3 hc)

/-- Helper: if the executor router edge re-runs the code generator, the
self-correction counter is unset or at most 3. -/
theorem executor_edge_gen_le (st : CIState)
    (h : code_executor_router_edge st = .ok (.node "code_generator_node")) :
    ∀ n : Int, st.self_correction_count = some n → n ≤ 3 := by
  intro n hn
  simp only [code_executor_router_edge, hn] at h
  rcases hgl : (get_rounds st none).getLast? with _ | lr
  · simp [hgl] at h
  · simp only [hgl] at h
    rcases hp : lr.posts.getLast? with _ | lp
    · simp [hp] at h
    · simp only [hp] at h
      by_contra hgt
      rw [if_neg (show ¬ n ≤ 3 from by omega)] at h
      split_ifs at h <;> simp_all

/-- Helper: if the verifier router edge re-runs the code generator, the
self-correction counter is unset or at most 3. -/
theorem verifier_edge_gen_le (st : CIState)
    (h : code_verifier_router_edge st = .ok (.node "code_generator_node")) :
    ∀ n : Int, st.self_correction_count = some n → n ≤ 3 := by
  intro n hn
  simp only [code_verifier_router_edge, hn] at h
  rcases hgl : (get_rounds st none).getLast? with _ | lr
  · simp [hgl] at h
  · simp only [hgl] at h
    rcases hp : lr.posts.getLast? with _ | lp
    · simp [hp] at h
    · simp only [hp] at h
      by_contra hgt
      rw [if_neg (show ¬ n ≤ 3 from by omega)] at h
      split_ifs at h <;> simp_all

/-- Helper: with a last post from the executor back to the generator and a
counter above 3, the executor router edge terminates the turn. -/
theorem executor_edge_terminal (st : CIState) (lr : ERound) (lp : EPost) (n : Int)
    (hgl : (get_rounds st none).getLast? = some lr)
    (hp : lr.posts.getLast? = some lp)
    (hf : lp.send_from = "CodeExecutor") (ht : lp.send_to = "CodeGenerator")
    (hn : st.self_correction_count = some n) (h3 : 3 < n) :
    code_executor_router_edge st = .ok .terminal := by
  simp only [code_executor_router_edge, hgl, hp, hf, ht, hn]
  simp [show ¬ n ≤ 3 from by omega]

/-- Helper: with a last post from the verifier back to the generator and a
counter above 3, the verifier router edge terminates the turn. -/
theorem verifier_edge_terminal (st : CIState) (lr : ERound) (lp : EPost) (n : Int)
    (hgl : (get_rounds st none).getLast? = some lr)
    (hp : lr.posts.getLast? = some lp)
    (hf : lp.send_from = "CodeVerifier") (ht : lp.send_to = "CodeGenerator")
    (hn : st.self_correction_count = some n) (h3 : 3 < n) :
    code_verifier_router_edge st = .ok .terminal := by
  simp only [code_verifier_router_edge, hgl, hp, hf, ht, hn]
  simp [show ¬ n ≤ 3 from by omega]

/-- Claim C2: both router edges re-run the corrected role only while the
self-correction counter is unset or at most 3; with a counter above 3 and a
last post that triggers self-correction, the turn is routed to the terminal
state; and along the worst-case run in which every execution fails, exactly
4 executions are attempted (1 original plus 3 corrections). -/
theorem c2_router_self_correction_bound :
    (∀ st : CIState, code_executor_router_edge st = .ok (.node "code_generator_node") →
       ∀ n : Int, st.self_correction_count = some n → n ≤ 3)
  ∧ (∀ st : CIState, code_verifier_router_edge st = .ok (.node "code_generator_node") →
       ∀ n : Int, st.self_correction_count = some n → n ≤ 3)
  ∧ (∀ (st : CIState) (lr : ERound) (lp : EPost) (n : Int),
       (get_rounds st none).getLast? = some lr → lr.posts.getLast? = some lp →
       lp.send_from = "CodeExecutor" → lp.send_to = "CodeGenerator" →
       st.self_correction_count = some n → 3 < n →
       code_executor_router_edge st = .ok .terminal)
  ∧ (∀ (st : CIState) (lr : ERound) (lp : EPost) (n : Int),
       (get_rounds st none).getLast? = some lr → lr.posts.getLast? = some lp →
       lp.send_from = "CodeVerifier" → lp.send_to = "CodeGenerator" →
       st.self_correction_count = some n → 3 < n →
       code_verifier_router_edge st = .ok .terminal)
  ∧ attemptsFrom 100 none = 4 := by
  refine ⟨executor_edge_gen_le, verifier_edge_gen_le, ?_, ?_, by decide⟩
  · intro st lr lp n hgl hp hf ht hn h3
    exact executor_edge_terminal st lr lp n hgl hp hf ht hn h3
  · intro st lr lp n hgl hp hf ht hn h3
    exact verifier_edge_terminal st lr lp n hgl hp hf ht hn h3

/-- Witness for `c2_router_self_correction_bound`: the bound applied at the
state with counter 2 (re-run allowed) and the terminal conclusion at the
state with counter 4. -/
theorem c2_witness :
    (2 : Int) ≤ 3 ∧ code_executor_router_edge (stWith (some 4)) = .ok .terminal :=
  ⟨c2_router_self_correction_bound.1 (stWith (some 2)) rfl 2 rfl,
   c2_router_self_correction_bound.2.2.1 (stWith (some 4))
     { id := "r1", user_query := "q", posts := [execFailPost], status := .created }
     execFailPost 4 rfl rfl rfl rfl rfl (by decide)⟩

/-- Claim C3: whenever the last post is addressed to the code executor (and
comes from the verifier, as the node asserts) and the execution result has
`is_success=True`, the executor node appends a post with
`send_to="Planner"` and returns the self-correction counter reset to
`None`. -/
theorem c3_executor_success_routes_to_planner (last_post : EPost) (c : Option Int)
    (result : ExecutionResult)
    (h1 : last_post.send_to = "CodeExecutor") (h2 : last_post.send_from = "CodeVerifier")
    (h3 : result.is_success = true) :
    ∃ post : EPost,
      code_executor_node_update last_post c result = .ok (post, none)
        ∧ post.send_to = "Planner" := by
  unfold code_executor_node_update
  simp [h1, h2, h3]

/-- Witness for `c3_executor_success_routes_to_planner` at a concrete post
and successful result. -/
theorem c3_witness :
    ∃ post : EPost,
      code_executor_node_update c3Post none c3Result = .ok (post, none)
        ∧ post.send_to = "Planner" :=
  c3_executor_success_routes_to_planner c3Post none c3Result rfl rfl rfl

/-- Witness for `c9_policy_conflict_becomes_diagnostic` at the concrete C9
policy (both module lists set) and code. -/
theorem c9_witness :
    ∃ m : String, validatorAsserts c9Policy = .error m
      ∧ apply_code_verification c9Policy c9Code =
        (if (seperate_code_lines c9Code).1.length > 0 then [VerifyError.magicsNotAllowed] else [])
          ++ [.syntaxError m] :=
  c9_policy_conflict_becomes_diagnostic c9Policy c9Code (by decide)

/-- Helper: `isShell` on a blank-or-comment line. -/
@[simp] theorem isShell_blankOrComment (t : String) :
    (SrcLine.blankOrComment t).isShell = false := rfl

/-- Helper: `isShell` on a line-magic line. -/
@[simp] theorem isShell_lineMagic (t : String) :
    (SrcLine.lineMagic t).isShell = false := rfl

/-- Helper: `isShell` on a cell-magic line. -/
@[simp] theorem isShell_cellMagic (t : String) :
    (SrcLine.cellMagic t).isShell = false := rfl

/-- Helper: `isShell` on a shell line. -/
@[simp] theorem isShell_shell (t : String) :
    (SrcLine.shell t).isShell = true := rfl

/-- Helper: `isShell` on a python line. -/
@[simp] theorem isShell_python (st : PyStmt) :
    (SrcLine.python st).isShell = false := rfl

/-- Helper: once `inside_cell_magic` is set, every later non-blank line goes
to `magics` and no python or shell line is produced. -/
theorem separateGo_true (code : List SrcLine) :
    separateGo true code = (code.filter fun l => !(l.isBlankOrComment), [], []) := by
  induction code with
  | nil => rfl
  | cons l rest ih => cases l <;> simp [separateGo, SrcLine.isBlankOrComment, ih]

/-- Helper: deleting the shell-escape lines changes neither the emptiness of
the magic-line list nor the parsed python statements. -/
theorem separateGo_false_filter_shell (code : List SrcLine) :
    ((separateGo false (code.filter fun l => !(l.isShell))).1 = []
        ↔ (separateGo false code).1 = [])
      ∧ (separateGo false (code.filter fun l => !(l.isShell))).2.1
          = (separateGo false code).2.1 := by
  induction code with
  | nil => simp
  | cons l rest ih =>
    cases l with
    | blankOrComment t => simpa [separateGo] using ih
    | lineMagic t => simp [separateGo, ih.2]
    | cellMagic t => simp [separateGo, separateGo_true]
    | shell t => simpa [separateGo] using ih
    | python st => simp [separateGo, ih.1, ih.2]

/-- Helper: the diagnostics of `apply_code_verification` are invariant under
deleting the shell-escape lines, for every policy. -/
theorem apply_code_verification_filter_shell (p : Policy) (code : List SrcLine) :
    apply_code_verification p (code.filter fun l => !(l.isShell))
      = apply_code_verification p code := by
  obtain ⟨h1, h2⟩ := separateGo_false_filter_shell code
  rcases hsep : (separateGo false code).1 with _ | ⟨a, as⟩
  · have hf : (separateGo false (code.filter fun l => !(l.isShell))).1 = [] :=
      h1.mpr hsep
    simp [apply_code_verification, seperate_code_lines, hsep, hf, h2]
  · rcases hfe : (separateGo false (code.filter fun l => !(l.isShell))).1 with _ | ⟨b, bs⟩
    · have := h1.mp hfe
      simp [hsep] at this
    · simp [apply_code_verification, seperate_code_lines, hsep, hfe, h2]

/-- Claim C10: shell-escape lines are separated out before parsing and are
checked against no policy (for every policy, the diagnostics equal those of
the same code with all shell lines deleted), and on a pass the verifier
forwards the original code, shell lines included, to the executor. -/
theorem c10_shell_lines_unchecked_and_forwarded (p : Policy) (code : List SrcLine)
    (c : Option Int) (hpass : apply_code_verification noPolicy code = []) :
    apply_code_verification p (code.filter fun l => !(l.isShell))
        = apply_code_verification p code
      ∧ (code_verifier_node_post code c).1.send_to = "CodeExecutor"
      ∧ (code_verifier_node_post code c).1.message = .code code := by
  refine ⟨apply_code_verification_filter_shell p code, ?_, ?_⟩ <;>
    simp [code_verifier_node_post, hpass]

/-- Witness for `c10_shell_lines_unchecked_and_forwarded` on code holding a
shell line and an import, with no policy. -/
theorem c10_witness :
    apply_code_verification noPolicy (c10Code.filter fun l => !(l.isShell))
        = apply_code_verification noPolicy c10Code
      ∧ (code_verifier_node_post c10Code none).1.send_to = "CodeExecutor"
      ∧ (code_verifier_node_post c10Code none).1.message = .code c10Code :=
  c10_shell_lines_unchecked_and_forwarded noPolicy c10Code none (by decide)

/-- Helper: looking up the key just written by `setAssoc` yields the written
value. -/
theorem lookup_setAssoc {α : Type} (k : String) (v : α) (l : List (String × α)) :
    (setAssoc k v l).lookup k = some v := by
  induction l with
  | nil => simp [setAssoc, List.lookup]
  | cons p rest ih =>
    obtain ⟨k2, v2⟩ := p
    by_cases hk : k2 = k
    · subst hk
      simp [setAssoc, List.lookup]
    · have hbeq : (k == k2) = false :=
        beq_eq_false_iff_ne.mpr fun hcontra => hk hcontra.symm
      simp [setAssoc, hk, List.lookup, hbeq, ih]

/-- Helper: `_get_session` never spawns a kernel, issues a control command,
or consumes an id. -/
theorem getSession_preserves (env : EnvState) (sid : String) (sdir cwd : Option String) :
    (env.getSession sid sdir cwd).1.spawned_kernels = env.spawned_kernels
      ∧ (env.getSession sid sdir cwd).1.cmds = env.cmds
      ∧ (env.getSession sid sdir cwd).1.next_id = env.next_id := by
  unfold EnvState.getSession
  rcases env.session_dict.lookup sid with _ | s <;> rcases sdir with _ | d <;> simp

/-- Claim C6 (counterexample): starting the same session twice is not a
no-op.  After the first call the session is ready with kernel `knl-0`, one
kernel spawned and one init handshake; the second call spawns a second
kernel, rebinds the session to `knl-1` and issues a second init
handshake. -/
theorem c6_counterexample :
    ((c6Env0.start_session "s1" (some "/envs/sessions/s1") none).toOption.bind fun e1 =>
      (e1.start_session "s1" (some "/envs/sessions/s1") none).toOption.map fun e2 =>
        (e1.spawned_kernels, e2.spawned_kernels,
         (e1.session_dict.lookup "s1").map Session.kernel_id,
         (e2.session_dict.lookup "s1").map Session.kernel_id,
         (e1.session_dict.lookup "s1").map Session.kernel_status,
         e1.cmds.length, e2.cmds.length))
      = some (["knl-0"], ["knl-0", "knl-1"],
              some (some "knl-0"), some (some "knl-1"),
              some .ready, 1, 2) := by
  rfl

/-- Claim C6 (amended): `start_session` is not idempotent.  Every successful
call — including one on a session that is already ready — allocates a fresh
kernel id, spawns a new kernel, rebinds the session's kernel binding to it,
re-issues the initialization handshake, and sets the status to ready. -/
theorem c6_start_session_always_respawns (env env' : EnvState) (sid : String)
    (sdir cwd : Option String)
    (h : env.start_session sid sdir cwd = .ok env') :
    env'.spawned_kernels = env.spawned_kernels ++ [get_id "knl" env.next_id]
      ∧ env'.cmds = env.cmds ++ [(sid, .sessionInit sid)]
      ∧ (env'.session_dict.lookup sid).map Session.kernel_id
          = some (some (get_id "knl" env.next_id))
      ∧ (env'.session_dict.lookup sid).map Session.kernel_status = some .ready := by
  obtain ⟨hspawn, hcmds, hnext⟩ := getSession_preserves env sid sdir cwd
  simp only [EnvState.start_session] at h
  rcases hg : (env.getSession sid sdir cwd).2 with _ | s
  · rw [hg] at h
    simp at h
  · rw [hg] at h
    simp only [Except.ok.injEq] at h
    subst h
    simp [lookup_setAssoc, hspawn, hcmds, hnext]

/-- Witness for `c6_start_session_always_respawns` at the concrete fresh
environment. -/
theorem c6_witness :
    ∃ env', c6Env0.start_session "s1" (some "/envs/sessions/s1") none = .ok env'
      ∧ env'.spawned_kernels = c6Env0.spawned_kernels ++ [get_id "knl" c6Env0.next_id]
      ∧ env'.cmds = c6Env0.cmds ++ [("s1", KernelCmd.sessionInit "s1")]
      ∧ (env'.session_dict.lookup "s1").map Session.kernel_id
          = some (some (get_id "knl" c6Env0.next_id))
      ∧ (env'.session_dict.lookup "s1").map Session.kernel_status = some .ready := by
  rcases hev : c6Env0.start_session "s1" (some "/envs/sessions/s1") none with e | env'
  · have hsome : (c6Env0.start_session "s1"
        (some "/envs/sessions/s1") none).toOption.isSome = true := by decide
    rw [hev] at hsome
    simp [Except.toOption] at hsome
  · obtain ⟨h1, h2, h3, h4⟩ :=
      c6_start_session_always_respawns c6Env0 env' "s1" (some "/envs/sessions/s1") none hev
    exact ⟨env', rfl, h1, h2, h3, h4⟩

/-- Helper: a list extended with an element contains it. -/
theorem contains_append_self (l : List String) (x : String) :
    (l ++ [x]).contains x = true := by
  induction l with
  | nil => simp [List.contains, List.elem]
  | cons y ys ih =>
    simp only [List.cons_append, List.contains, List.elem] at ih ⊢
    cases hxy : x == y <;> simp [hxy, ih]

/-- Claim C7: loading a plugin twice with the same (fresh) hashsum issues
exactly one underlying injection: the first call succeeds and adds exactly
one register control command, and the second call returns the client state
unchanged without touching the environment. -/
theorem c7_load_plugin_dedup (c : ClientState) (name pkg : String)
    (cfg : Option (List (String × String))) (h : String)
    (hnot : c.loaded_plugins.contains h = false)
    (hsess : (c.env.session_dict.lookup c.session_id).isSome = true) :
    ∃ c1 : ClientState,
      c.load_plugin name pkg cfg (some h) = .ok c1
        ∧ c1.load_plugin name pkg cfg (some h) = .ok c1
        ∧ countRegister c1.env.cmds c.session_id name pkg
            = countRegister c.env.cmds c.session_id name pkg + 1 := by
  rcases hs : c.env.session_dict.lookup c.session_id with _ | s
  · rw [hs] at hsess
    simp at hsess
  · have hload : ∃ env1, c.env.load_plugin c.session_id name pkg cfg = .ok env1
        ∧ countRegister env1.cmds c.session_id name pkg
            = countRegister c.env.cmds c.session_id name pkg + 1 := by
      simp only [EnvState.load_plugin, hs]
      rcases hp : s.plugins.lookup name with _ | prev
      · exact ⟨_, rfl, by simp [countRegister, List.filter_append, isRegisterFor]⟩
      · rcases hl : prev.loaded
        · exact ⟨_, rfl, by simp [hl, countRegister, List.filter_append, isRegisterFor]⟩
        · exact ⟨_, rfl, by simp [hl, countRegister, List.filter_append, isRegisterFor]⟩
    obtain ⟨env1, henv1, hcount⟩ := hload
    have hmem : h ∉ c.loaded_plugins := by
      intro hm
      have h2 := List.elem_eq_true_of_mem hm
      simp only [List.contains] at hnot
      rw [h2] at hnot
      exact Bool.noConfusion hnot
    refine ⟨{ c with env := env1, loaded_plugins := c.loaded_plugins ++ [h] }, ?_, ?_, hcount⟩
    · simp [ClientState.load_plugin, hashsumLoaded, hnot, henv1, hmem]
    · simp [ClientState.load_plugin, hashsumLoaded, contains_append_self]

/-- Witness for `c7_load_plugin_dedup` at a concrete client with a ready
session and an empty hashsum set. -/
theorem c7_witness :
    ∃ c1 : ClientState,
      c7Client0.load_plugin "tavily_search" "PKG" none (some "hash-1") = .ok c1
        ∧ c1.load_plugin "tavily_search" "PKG" none (some "hash-1") = .ok c1
        ∧ countRegister c1.env.cmds c7Client0.session_id "tavily_search" "PKG"
            = countRegister c7Client0.env.cmds c7Client0.session_id "tavily_search" "PKG" + 1 :=
  c7_load_plugin_dedup c7Client0 "tavily_search" "PKG" none "hash-1"
    (by decide) (by decide)

/-- Helper: a readable reference is live. -/
theorem Heap.read_lt_size {h : Heap} {r : Ref} {c : Cell} (hr : h.read r = some c) :
    r < h.size :=
  (List.getElem?_eq_some.mp hr).1

/-- Helper: allocation grows the heap by one cell. -/
theorem Heap.size_alloc (h : Heap) (c : Cell) : (h.alloc c).2.size = h.size + 1 := by
  simp [Heap.alloc, Heap.size]

/-- Helper: writing preserves the heap size. -/
theorem Heap.size_write (h : Heap) (r : Ref) (c : Cell) : (h.write r c).size = h.size := by
  simp [Heap.write, Heap.size]

/-- Helper: allocation preserves every live cell. -/
theorem Heap.read_alloc_lt {h : Heap} {r : Ref} (hlt : r < h.size) (c : Cell) :
    (h.alloc c).2.read r = h.read r := by
  simp only [Heap.alloc, Heap.read]
  rw [List.getElem?_append]
  simp [Heap.size] at hlt
  simp [hlt]

/-- Helper: the freshly allocated reference holds the allocated cell. -/
theorem Heap.read_alloc_self (h : Heap) (c : Cell) :
    (h.alloc c).2.read (h.alloc c).1 = some c := by
  simp only [Heap.alloc, Heap.read]
  exact List.getElem?_concat_length h.cells c

/-- Helper: reading a written live cell yields the written value. -/
theorem Heap.read_write_self {h : Heap} {r : Ref} (hlt : r < h.size) (c : Cell) :
    (h.write r c).read r = some c := by
  simp only [Heap.write, Heap.read]
  simp [List.getElem?_set_self, Heap.size] at hlt ⊢
  simp [hlt]

/-- Helper: writing one cell preserves every other cell. -/
theorem Heap.read_write_ne {h : Heap} {r0 r : Ref} (hne : r ≠ r0) (c : Cell) :
    (h.write r0 c).read r = h.read r := by
  simp only [Heap.write, Heap.read]
  exact List.getElem?_set_ne fun he => hne he.symm

/-- Helper: the frame relation is reflexive. -/
theorem Frame.rfl (B : Nat) (h : Heap) : Frame B h h :=
  ⟨Nat.le_refl _, fun _ _ _ hr _ => hr⟩

/-- Helper: the frame relation composes. -/
theorem Frame.trans {B : Nat} {h1 h2 h3 : Heap} (f : Frame B h1 h2) (g : Frame B h2 h3) :
    Frame B h1 h3 :=
  ⟨Nat.le_trans f.1 g.1, fun r c hrB hrd hpu => g.2 r c hrB (f.2 r c hrB hrd hpu) hpu⟩

/-- Helper: allocation is a frame step for any bound. -/
theorem frame_alloc (B : Nat) (h : Heap) (c : Cell) : Frame B h (h.alloc c).2 :=
  ⟨by rw [Heap.size_alloc]; omega,
   fun r c2 _ hrd _ => by rw [Heap.read_alloc_lt (Heap.read_lt_size hrd) c]; exact hrd⟩

/-- Helper: writing at or above the bound is a frame step. -/
theorem frame_write_ge {B r0 : Nat} (hge : B ≤ r0) (h : Heap) (c : Cell) :
    Frame B h (h.write r0 c) :=
  ⟨by rw [Heap.size_write],
   fun r c2 hrB hrd _ => by
     have hne : r ≠ r0 := by omega
     rw [Heap.read_write_ne hne c]
     exact hrd⟩

/-- Helper: writing a PostUpdate cell is a frame step (the frame exempts
PostUpdate objects). -/
theorem frame_write_postUpd {h : Heap} {r0 : Ref} {u : PostUpdObj}
    (hr0 : h.read r0 = some (.postUpd u)) (B : Nat) (c : Cell) :
    Frame B h (h.write r0 c) := by
  refine ⟨by rw [Heap.size_write], fun r c2 hrB hrd hpu => ?_⟩
  by_cases he : r = r0
  · subst he
    rw [hrd] at hr0
    injection hr0 with hc
    subst hc
    simp [Cell.isPostUpd] at hpu
  · rw [Heap.read_write_ne he c]
    exact hrd

/-- Helper: `list.append` on a reference at or above the bound is a frame
step. -/
theorem frame_listAppend {B : Nat} {h : Heap} {r x : Ref} {h2 : Heap}
    (hge : B ≤ r) (heq : h.listAppend r x = .ok h2) : Frame B h h2 := by
  unfold Heap.listAppend at heq
  rcases hrl : h.readList r with e | es
  · rw [hrl] at heq
    exact absurd heq (by simp)
  · rw [hrl] at heq
    simp only [Except.ok.injEq] at heq
    subst heq
    exact frame_write_ge hge h _

/-- Helper: `Post.new` only allocates: it is a frame step for any bound and
its result reference is fresh. -/
theorem frame_Post_new (B : Nat) (h : Heap) (id sf st msg : String)
    (atts : List Ref) (oms : Option (List Ref)) :
    Frame B h (Post_new h id sf st msg atts oms).2
      ∧ h.size ≤ (Post_new h id sf st msg atts oms).1 := by
  unfold Post_new
  rcases oms with _ | msgs
  · exact ⟨(frame_alloc B h _).trans (frame_alloc B _ _),
      by simp [Heap.alloc, Heap.size]⟩
  · exact ⟨((frame_alloc B h _).trans (frame_alloc B _ _)).trans (frame_alloc B _ _),
      by simp [Heap.alloc, Heap.size]⟩

/-- Helper: the attachment-merge step of `Post.update` writes only the
fresh post (at or above the bound) and allocates. -/
theorem frame_postUpdateAtts {B : Nat} {h : Heap} {pRef : Ref} {ua : Option Ref}
    {h2 : Heap} (hge : B ≤ pRef) (heq : postUpdateAtts h pRef ua = .ok h2) :
    Frame B h h2 := by
  unfold postUpdateAtts at heq
  split at heq
  · simp only [Except.ok.injEq] at heq
    subst heq
    exact Frame.rfl B h
  · split at heq
    · simp at heq
    · split at heq
      · simp at heq
      · split at heq
        · simp at heq
        · simp only [Except.ok.injEq] at heq
          subst heq
          exact (frame_alloc B h _).trans (frame_write_ge hge _ _)

/-- Helper: the message-merge step of `Post.update` writes only the fresh
post (at or above the bound) and allocates. -/
theorem frame_postUpdateOms {B : Nat} {h : Heap} {pRef : Ref} {um : Option Ref}
    {h2 : Heap} (hge : B ≤ pRef) (heq : postUpdateOms h pRef um = .ok h2) :
    Frame B h h2 := by
  unfold postUpdateOms at heq
  split at heq
  · simp only [Except.ok.injEq] at heq
    subst heq
    exact Frame.rfl B h
  · split at heq
    · simp at heq
    · split at heq
      · split at heq
        · simp at heq
        · split at heq
          · simp at heq
          · simp only [Except.ok.injEq] at heq
            subst heq
            exact (frame_alloc B h _).trans (frame_write_ge hge _ _)
      · split at heq
        next neRef hne halloc =>
          split at heq
          · simp at heq
          · simp only [Except.ok.injEq] at heq
            subst heq
            have f1 : Frame B h hne := by
              have f0 := frame_alloc B h (Cell.list [])
              rwa [halloc] at f0
            exact (f1.trans (frame_write_ge hge _ _)).trans
              ((frame_alloc B _ _).trans (frame_write_ge hge _ _))

/-- Helper: a successful `readPostUpd` exposes the PostUpdate cell. -/
theorem readPostUpd_some {h : Heap} {r : Ref} {u : PostUpdObj}
    (hr : h.readPostUpd r = .ok u) : h.read r = some (.postUpd u) := by
  unfold Heap.readPostUpd at hr
  split at hr
  next u2 hc =>
    simp only [Except.ok.injEq] at hr
    subst hr
    exact hc
  next =>
    simp at hr

/-- Helper: `Post.update` never changes any live non-PostUpdate cell below
the bound (it allocates and writes only the fresh post). -/
theorem frame_Post_update {B : Nat} {h : Heap} {selfRef : Ref} {u : PostUpdObj}
    {pr : Ref × Heap} (hB : B ≤ h.size)
    (heq : Post_update h selfRef u = .ok pr) : Frame B h pr.2 := by
  unfold Post_update at heq
  split at heq
  · simp at heq
  next self hself =>
    split at heq
    · simp at heq
    · split at heq
      · simp at heq
      next atts hatts =>
        split at heq
        · simp at heq
        next oms homs =>
          split at heq
          next pRef hpn hpneq =>
            split at heq
            · simp at heq
            next h2 hAtts =>
              split at heq
              · simp at heq
              next h4 hOms =>
                simp only [Except.ok.injEq] at heq
                subst heq
                have hfn := frame_Post_new B h self.id (u.send_from.getD self.send_from)
                  (u.send_to.getD self.send_to) (u.message.getD self.message) atts oms
                rw [hpneq] at hfn
                have hge : B ≤ pRef := Nat.le_trans hB hfn.2
                exact (hfn.1.trans (frame_postUpdateAtts hge hAtts)).trans
                  (frame_postUpdateOms hge hOms)

/-- Helper: `to_post` writes only the PostUpdate object itself (exempted by
the frame) and allocates. -/
theorem frame_to_post {B : Nat} {h : Heap} {updRef : Ref} {pr : Ref × Heap}
    (hB : B ≤ h.size) (heq : PostUpd_to_post h updRef = .ok pr) : Frame B h pr.2 := by
  unfold PostUpd_to_post at heq
  split at heq
  · simp at heq
  next u hu =>
    split at heq
    · simp at heq
    next sf hsf =>
      split at heq
      · simp at heq
      next st hst =>
        split at heq
        · simp at heq
        next msg hmsg =>
          split at heq
          next h1 attsRef hr =>
            split at heq
            · simp at heq
            next atts hatts =>
              split at heq
              · simp at heq
              next oms homs =>
                simp only [Except.ok.injEq] at heq
                subst heq
                have f1 : Frame B h h1 := by
                  rcases hua : u.attachments with _ | ar
                  · rw [hua] at hr
                    rcases hal : h.alloc (Cell.list []) with ⟨neRef, hne⟩
                    rw [hal] at hr
                    simp only [Prod.mk.injEq] at hr
                    obtain ⟨hh1, _⟩ := hr
                    subst hh1
                    have f0 := frame_alloc B h (Cell.list [])
                    rw [hal] at f0
                    have hupd : hne.read updRef = some (.postUpd u) := by
                      have hread := readPostUpd_some hu
                      have hlt := Heap.read_lt_size hread
                      have hpres := Heap.read_alloc_lt hlt (Cell.list [])
                      rw [hal] at hpres
                      rw [hpres]
                      exact hread
                    exact f0.trans (frame_write_postUpd hupd B _)
                  · rw [hua] at hr
                    simp only [Prod.mk.injEq] at hr
                    obtain ⟨hh1, _⟩ := hr
                    subst hh1
                    exact Frame.rfl B h
                have hfn := frame_Post_new B h1 u.id sf st msg atts oms
                exact f1.trans hfn.1

/-- Helper: the posts-processing loop preserves the frame: merges allocate
fresh posts, appends write only the fresh `new_posts` list, and `to_post`
writes only PostUpdate objects. -/
theorem frame_processPosts {B : Nat} {npRef : Ref} :
    ∀ (es : List Ref) (h : Heap) (existing : List (String × Ref)) (h2 : Heap),
      B ≤ h.size → B ≤ npRef → processPosts h npRef existing es = .ok h2 →
      Frame B h h2 := by
  intro es
  induction es with
  | nil =>
    intro h ex h2 hB hnp heq
    unfold processPosts at heq
    simp only [Except.ok.injEq] at heq
    subst heq
    exact Frame.rfl B h
  | cons e rest ih =>
    intro h ex h2 hB hnp heq
    unfold processPosts at heq
    split at heq
    · simp at heq
    case _ pu hcell =>
      split at heq
      next selfRef hfound =>
        split at heq
        · simp at heq
        next r hPU =>
          have f1 := frame_Post_update hB hPU
          exact f1.trans (ih r.2 _ h2 (Nat.le_trans hB f1.1) hnp heq)
      next hfound =>
        split at heq
        · simp at heq
        next r hTP =>
          split at heq
          · simp at heq
          next h3 hLA =>
            have f1 := frame_to_post hB hTP
            have f2 := frame_listAppend hnp hLA
            exact (f1.trans f2).trans
              (ih h3 _ h2 (Nat.le_trans hB (Nat.le_trans f1.1 f2.1)) hnp heq)
    case _ p hcell =>
      split at heq
      · simp at heq
      next h3 hLA =>
        have f2 := frame_listAppend hnp hLA
        exact f2.trans (ih h3 _ h2 (Nat.le_trans hB f2.1) hnp heq)
    case _ hcell h1 h2 =>
      simp at heq

/-- Helper: the user-query step writes only the fresh round copy. -/
theorem frame_mergeUserQuery {B : Nat} (h1 : Heap) (nrRef : Ref) (ro : RoundObj)
    (uq : Option String) (hnr : B ≤ nrRef) :
    Frame B h1 (mergeUserQuery h1 nrRef ro uq) := by
  unfold mergeUserQuery
  rcases uq with _ | q
  · exact Frame.rfl B h1
  · exact frame_write_ge hnr h1 _

/-- Helper: the posts step of the merge branch writes only the fresh round
copy, the fresh posts list, and PostUpdate objects. -/
theorem frame_mergePosts {B : Nat} {h2 : Heap} {nrRef : Ref} {uposts : Option Ref}
    {h3 : Heap} (hB : B ≤ h2.size) (hnr : B ≤ nrRef)
    (heq : mergePosts h2 nrRef uposts = .ok h3) : Frame B h2 h3 := by
  unfold mergePosts at heq
  split at heq
  · simp only [Except.ok.injEq] at heq
    subst heq
    exact Frame.rfl B h2
  · split at heq
    · simp at heq
    next ro hro =>
      split at heq
      · simp at heq
      next oldPosts hop =>
        split at heq
        next npRef hnp halloc =>
          split at heq
          · simp at heq
          next existing hex =>
            split at heq
            · simp at heq
            next upostRefs hup =>
              split at heq
              · simp at heq
              next hh hpp =>
                split at heq
                · simp at heq
                next ro2 hro2 =>
                  simp only [Except.ok.injEq] at heq
                  subst heq
                  have f0 := frame_alloc B h2 (Cell.list oldPosts)
                  rw [halloc] at f0
                  have hnpB : B ≤ npRef := by
                    have hfst := congrArg Prod.fst halloc
                    simp only [Heap.alloc] at hfst
                    have : h2.size = npRef := hfst
                    omega
                  have hBnp : B ≤ hnp.size := Nat.le_trans hB f0.1
                  have f1 := frame_processPosts upostRefs hnp existing hh hBnp hnpB hpp
                  exact (f0.trans f1).trans (frame_write_ge hnr hh _)

/-- Helper: the status step writes only the fresh round copy. -/
theorem frame_mergeStatus {B : Nat} {h3 : Heap} {nrRef : Ref}
    {ustat : Option RoundStatus} {h4 : Heap} (hnr : B ≤ nrRef)
    (heq : mergeStatus h3 nrRef ustat = .ok h4) : Frame B h3 h4 := by
  unfold mergeStatus at heq
  split at heq
  · simp only [Except.ok.injEq] at heq
    subst heq
    exact Frame.rfl B h3
  · split at heq
    · simp at heq
    next ro3 hro3 =>
      simp only [Except.ok.injEq] at heq
      subst heq
      exact frame_write_ge hnr h3 _

/-- Helper: applying one update preserves the frame: it writes only the
rounds-list copy, cells allocated during the call, and PostUpdate
objects. -/
theorem frame_applyOneUpdate {B : Nat} {h : Heap} {copyRef updRef : Ref} {h2 : Heap}
    (hB : B ≤ h.size) (hcp : B ≤ copyRef)
    (heq : applyOneUpdate h copyRef updRef = .ok h2) : Frame B h h2 := by
  unfold applyOneUpdate at heq
  split at heq
  · simp at heq
  next c hcell =>
    split at heq
    · simp at heq
    next u hupd =>
      split at heq
      · simp at heq
      next rs hrs =>
        split at heq
        · simp at heq
        · -- round unresolved: new-round branch
          split at heq
          · simp at heq
          next uq huq =>
            split at heq
            · simp at heq
            next postsElems hpe =>
              split at heq
              · simp at heq
              · exact ((frame_alloc B h _).trans (frame_alloc B _ _)).trans
                  (frame_listAppend hcp heq)
        next f hfind =>
          split at heq
          next nrRef h1 halloc =>
            split at heq
            · simp at heq
            next h3 hmp =>
              split at heq
              · simp at heq
              next h4 hms =>
                split at heq
                · simp at heq
                next rs2 hrs2 =>
                  simp only [Except.ok.injEq] at heq
                  subst heq
                  have f0 := frame_alloc B h (Cell.round f.2.2)
                  rw [halloc] at f0
                  have hnr : B ≤ nrRef := by
                    have hfst := congrArg Prod.fst halloc
                    simp only [Heap.alloc] at hfst
                    have : h.size = nrRef := hfst
                    omega
                  have f1 := frame_mergeUserQuery (B := B) h1 nrRef f.2.2 u.user_query hnr
                  have hB2 : B ≤ (mergeUserQuery h1 nrRef f.2.2 u.user_query).size :=
                    Nat.le_trans hB (Nat.le_trans f0.1 f1.1)
                  have f2 := frame_mergePosts hB2 hnr hmp
                  have f3 := frame_mergeStatus hnr hms
                  exact ((((f0.trans f1).trans f2).trans f3).trans
                    (frame_write_ge hcp h4 _))

/-- Helper: folding the update list preserves the frame. -/
theorem frame_applyUpdates {B : Nat} {copyRef : Ref} :
    ∀ (updates : List Ref) (h : Heap) (h2 : Heap),
      B ≤ h.size → B ≤ copyRef → applyUpdates h copyRef updates = .ok h2 →
      Frame B h h2 := by
  intro updates
  induction updates with
  | nil =>
    intro h h2 hB hcp heq
    unfold applyUpdates at heq
    simp only [Except.ok.injEq] at heq
    subst heq
    exact Frame.rfl B h
  | cons u rest ih =>
    intro h h2 hB hcp heq
    unfold applyUpdates at heq
    split at heq
    · simp at heq
    next h1 hone =>
      have f1 := frame_applyOneUpdate hB hcp hone
      exact f1.trans (ih h1 h2 (Nat.le_trans hB f1.1) hcp heq)

/-- Claim C4 (counterexample): `update_rounds` does mutate one of its
inputs.  On a heap with one existing round and an update whose posts hold a
PostUpdate with a fresh post id and `attachments=None`, the successful run
rewrites the pre-existing PostUpdate cell in place: `to_post` executes
`self.attachments = []`, binding the field to a fresh empty list. -/
theorem c4_counterexample :
    c4h0.read 5 = some (.postUpd
      { id := "p1", send_from := some "User", send_to := some "Planner",
        message := some "hello", attachments := none, original_messages := none })
      ∧ ((update_rounds_heap c4h0 0 [3]).toOption.map fun p => p.2.read 5)
          = some (some (.postUpd
              { id := "p1", send_from := some "User", send_to := some "Planner",
                message := some "hello", attachments := some 9,
                original_messages := none })) := by
  constructor <;> rfl

/-- Claim C4 (amended): `update_rounds` returns a fresh list object and
never mutates any previously existing Round, Post, or list cell (so every
pre-existing posts list, attachments list and original-messages list is
unchanged, and a merged Post's original is left intact) — the one exception
being PostUpdate input objects, which `to_post` normalizes in place
(`attachments: None → []`). -/
theorem c4_update_rounds_frame (h : Heap) (roundsRef : Ref) (updates : List Ref)
    (res : Ref) (h2 : Heap)
    (heq : update_rounds_heap h roundsRef updates = .ok (res, h2)) :
    res = h.size ∧ Frame h.size h h2 := by
  unfold update_rounds_heap at heq
  split at heq
  · simp at heq
  next rs hrs =>
    split at heq
    next cpRef h1 halloc =>
      split at heq
      · simp at heq
      next hh happ =>
        simp only [Except.ok.injEq, Prod.mk.injEq] at heq
        obtain ⟨hres, hheap⟩ := heq
        subst hheap
        have hsz : h.size = cpRef := congrArg Prod.fst halloc
        constructor
        · rw [← hres, ← hsz]
        · have f0 := frame_alloc h.size h (Cell.list rs)
          rw [halloc] at f0
          have f0b : Frame h.size h h1 := f0
          have f1 := frame_applyUpdates updates h1 _ f0b.1 (Nat.le_of_eq hsz) happ
          exact f0b.trans f1

/-- Witness for `c4_update_rounds_frame` on the concrete C4 heap (the run
succeeds, returns the fresh list reference, and satisfies the frame). -/
theorem c4_witness :
    ∃ p : Ref × Heap, update_rounds_heap c4h0 0 [3] = .ok p
      ∧ p.1 = c4h0.size ∧ Frame c4h0.size c4h0 p.2 := by
  rcases hev : update_rounds_heap c4h0 0 [3] with e | p
  · have hsome : (update_rounds_heap c4h0 0 [3]).toOption.isSome = true := by decide
    rw [hev] at hsome
    simp [Except.toOption] at hsome
  · obtain ⟨h1, h2⟩ := c4_update_rounds_frame c4h0 0 [3] p.1 p.2 (by rw [hev])
    exact ⟨p, rfl, h1, h2⟩

/-- Claim C5 (counterexample): a round's status can move backward.  On a
heap with one FINISHED round, applying an update with `status="created"`
succeeds and the round in the returned rounds list is back to `created`. -/
theorem c5_counterexample :
    c5h0.read 1 = some (.round { id := "r1", user_query := "q", posts := 2,
                                 status := .finished })
      ∧ ((update_rounds_heap c5h0 0 [3]).toOption.bind fun p => p.2.read 5)
          = some (.round { id := "r1", user_query := "q", posts := 2,
                           status := .created })
      ∧ ((update_rounds_heap c5h0 0 [3]).toOption.bind fun p => (p.2.readList p.1).toOption)
          = some [5] := by
  refine ⟨rfl, rfl, rfl⟩

/-- Claim C5 (amended): `update_rounds` applies an update's `status`
unconditionally — whatever status the update carries becomes the round's
status, with no forward-only check, for every prior status (backward
transitions included).  Only the copied round is changed; the original
round object keeps its old status. -/
theorem c5_status_overwrite (h : Heap) (roundsRef updRef : Ref) (u : RoundUpdObj)
    (rs : List Ref) (qid : String) (s : RoundStatus) (idx : Nat) (rref : Ref)
    (ro : RoundObj)
    (hrs : h.readList roundsRef = .ok rs)
    (hupd : h.read updRef = some (.roundUpd u))
    (hid : u.id = some qid)
    (huq : u.user_query = none)
    (hposts : u.posts = none)
    (hstat : u.status = some s)
    (hfind : findRound (h.alloc (.list rs)).2 qid rs 0 = .ok (some (idx, rref, ro))) :
    ∃ h2 : Heap, update_rounds_heap h roundsRef [updRef] = .ok (h.size, h2)
      ∧ h2.read (h.size + 1) = some (.round { ro with status := s }) := by
  rcases hal : h.alloc (Cell.list rs) with ⟨cpRef, h1⟩
  have hcp : cpRef = h.size := (congrArg Prod.fst hal).symm
  subst hcp
  have hsz1 : h1.size = h.size + 1 := by
    have hs := Heap.size_alloc h (Cell.list rs)
    rw [hal] at hs
    exact hs
  have hreadcp : h1.read h.size = some (.list rs) := by
    have hs := Heap.read_alloc_self h (Cell.list rs)
    rw [hal] at hs
    exact hs
  have hrl : h1.readList h.size = .ok rs := by
    unfold Heap.readList
    rw [hreadcp]
  have hlt_upd : updRef < h.size := Heap.read_lt_size hupd
  have hread_upd : h1.read updRef = some (.roundUpd u) := by
    have hs := Heap.read_alloc_lt hlt_upd (Cell.list rs)
    rw [hal] at hs
    have hs2 : h1.read updRef = h.read updRef := hs
    rw [hs2]
    exact hupd
  have hrc : h1.readCell updRef = .ok (.roundUpd u) := by
    unfold Heap.readCell
    rw [hread_upd]
  have hfind1 : findRound h1 qid rs 0 = .ok (some (idx, rref, ro)) := by
    rw [hal] at hfind
    exact hfind
  rcases hnr : h1.alloc (Cell.round ro) with ⟨nrRef, h1b⟩
  have hnrRef : nrRef = h.size + 1 := by
    have h0 : h1.size = nrRef := congrArg Prod.fst hnr
    rw [← h0, hsz1]
  subst hnrRef
  have hsz1b : h1b.size = h.size + 2 := by
    have hs := Heap.size_alloc h1 (Cell.round ro)
    rw [hnr] at hs
    have hs2 : h1b.size = h1.size + 1 := hs
    rw [hs2, hsz1]
  have hread_nr : h1b.read (h.size + 1) = some (.round ro) := by
    have hs := Heap.read_alloc_self h1 (Cell.round ro)
    rw [hnr] at hs
    exact hs
  have hrr : h1b.readRound (h.size + 1) = .ok ro := by
    unfold Heap.readRound
    rw [hread_nr]
  have hread_cp1b : h1b.read h.size = some (.list rs) := by
    have hltcp : h.size < h1.size := by
      rw [hsz1]
      exact Nat.lt_succ_self _
    have hs := Heap.read_alloc_lt hltcp (Cell.round ro)
    rw [hnr] at hs
    have hs2 : h1b.read h.size = h1.read h.size := hs
    rw [hs2]
    exact hreadcp
  have hread_cpA :
      (h1b.write (h.size + 1) (Cell.round { ro with status := s })).read h.size
        = some (.list rs) := by
    have hne : h.size ≠ h.size + 1 := Nat.ne_of_lt (Nat.lt_succ_self _)
    rw [Heap.read_write_ne hne]
    exact hread_cp1b
  have hrlA :
      (h1b.write (h.size + 1) (Cell.round { ro with status := s })).readList h.size
        = .ok rs := by
    unfold Heap.readList
    rw [hread_cpA]
  refine ⟨(h1b.write (h.size + 1) (Cell.round { ro with status := s })).write h.size
      (.list (rs.set idx (h.size + 1))), ?_, ?_⟩
  · simp only [update_rounds_heap, hrs, hal, applyUpdates, applyOneUpdate, hrc,
      updFieldsOf, hrl, hid, hfind1, hnr, mergeUserQuery, huq, mergePosts, hposts,
      mergeStatus, hstat, hrr, hrlA]
  · have hne2 : h.size + 1 ≠ h.size := Nat.succ_ne_self h.size
    rw [Heap.read_write_ne hne2]
    exact Heap.read_write_self (by rw [hsz1b]; exact Nat.lt_succ_self _) _

/-- Witness for `c5_status_overwrite` on the concrete C5 heap: the update
carrying `status="created"` succeeds and the merged copy of the finished
round ends up back at `created`. -/
theorem c5_witness :
    ∃ h2 : Heap, update_rounds_heap c5h0 0 [3] = .ok (c5h0.size, h2)
      ∧ h2.read (c5h0.size + 1)
          = some (.round { id := "r1", user_query := "q", posts := 2,
                           status := .created }) :=
  c5_status_overwrite c5h0 0 3
    { id := some "r1", user_query := none, posts := none, status := some .created }
    [1] "r1" .created 0 1
    { id := "r1", user_query := "q", posts := 2, status := .finished }
    rfl rfl rfl rfl rfl rfl rfl

/-- Claim C8 (code bug evaluation): publishing event `a` on an emitter with
two persistent listeners (patterns `a` and `b`) invokes callback 0 exactly
once, but the retained listener list afterwards holds only the listener that
matched — the non-matching persistent subscription on `b` is dropped,
because the loop rebuilding `self.listeners` appends a listener only inside
its match branch.  The claim (and the spec, and the purpose of the
persistent `on` registration) require non-matching subscriptions to remain
registered. -/
theorem c8_code_bug_eval :
    c8Emitter.listeners.length = 2
      ∧ c8Emitter.emit [Char.ofNat 97]
          = .ok ([0],
              { listeners :=
                  [{ event_name := [.lit (Char.ofNat 97)], callback := 0,
                     once := false }] }) :=
  ⟨rfl, rfl⟩

end SciMate
